import Mathlib

/-! BubbleWorld client: map field grid, chunk geometry, persistence and update fields.

A shallow embedding of `src/Gameplay/Map.cpp`, `src/Objects/WorldObject.cpp` and
`src/Objects/Gameobject.cpp`.

Conventions of the embedding:
* machine integers are natural numbers; where the C++ arithmetic can wrap, the
  reduction modulo `2 ^ 32` (or `2 ^ 64`) is written out;
* `std::vector` is a `List`; indexing a vector out of range (undefined behaviour in
  the source) reads a default value and writes nothing;
* a `WorldObject*` is a natural number (an address), the objects live in a heap
  `Nat → WorldObject`;
* the diagnostic sink `sLog` is the list of entries a call emits;
* constants of the absent headers (`MAP_VERSION_MAGIC`, `MAP_CHUNK_SIZE_X`,
  `OBJECT_FIELD_GUID`, ...) are parameters of the functions that use them.
-/

namespace BubbleWorld

/-! ## Data model -/

/-- Modelled from the spec: the record `MapField` is declared in `Map.h`, which is not
part of the sources; the data model gives it as {type: 16-bit, textureRef: 32-bit,
flags: 32-bit}, with the member names `type`, `texture`, `flags` used by `Map.cpp`. -/
structure MapField where
  type : Nat
  texture : Nat
  flags : Nat
deriving DecidableEq, Repr

/-- Modelled from the spec: the record `MapHeader` is declared in `Map.h`, which is not
part of the sources; the persisted layout lists its members in declaration order, the
member names are the ones `Map.cpp` uses. -/
structure MapHeader where
  mapId : Nat
  sizeX : Nat
  sizeY : Nat
  defaultFieldType : Nat
  defaultFieldTexture : Nat
  defaultFieldFlags : Nat
  mapVersionMagic : Nat
deriving DecidableEq, Repr

/-- The entries `Map.cpp` sends to the diagnostic sink through `sLog->Error`. -/
inductive LogEntry where
  | setNonexistantField (x y : Nat)
  | loadNonexistantMap (mapId : Nat)
  | couldNotOpenForReading (filename : String)
  | saveNonexistantMap (mapId : Nat)
  | couldNotOpenForWriting (filename : String)
deriving DecidableEq, Repr

/-- The members of `class Map`: header, field grid (`m_fields[x][y]`), the identity
set of object pointers and the GUID index. -/
structure Map where
  m_header : MapHeader
  m_fields : List (List MapField)
  m_objectSet : List Nat
  m_objectGuidMap : List (Nat × Nat)
deriving DecidableEq, Repr

/-- A value-initialised `MapField` (what `std::vector::resize` appends). -/
def zeroField : MapField := ⟨0, 0, 0⟩

/-- The constructor `Map::Map()`: only `m_header.mapId` is set, the containers are
empty; the remaining header members are uninitialised in the source and read 0 here. -/
def Map.new : Map :=
  { m_header := ⟨0, 0, 0, 0, 0, 0, 0⟩, m_fields := [], m_objectSet := [], m_objectGuidMap := [] }

/-! ## Library behaviour used by the source -/

/-- The call `std::vector::resize(n)`: keeps the first `n` elements, appends
value-initialised elements `d` up to length `n`. -/
def vectorResize {α : Type} (v : List α) (n : Nat) (d : α) : List α :=
  v.take n ++ List.replicate (n - v.length) d

/-- The loop `for (uint32_t i = 0; i < n; i++) body` as a state transformer. -/
def forLoop {σ : Type} (n : Nat) (body : Nat → σ → σ) (s : σ) : σ :=
  (List.range n).foldl (fun acc i => body i acc) s

/-- The element `m_fields[x][y]` (default when out of range). -/
def cellAt (fields : List (List MapField)) (x y : Nat) : MapField :=
  (fields.getD x []).getD y zeroField

/-- Assignment through `m_fields[x][y]`. -/
def setCell (fields : List (List MapField)) (x y : Nat) (f : MapField) : List (List MapField) :=
  fields.set x ((fields.getD x []).set y f)

/-! ## Map field grid (`Map.cpp`) -/

/-- The method `Map::InitEmpty`: copies the header, stamps the version magic, then
resizes the grid and writes the defaults into every cell. -/
def InitEmpty (MAP_VERSION_MAGIC : Nat) (m : Map) (mh : MapHeader) : Map :=
  let hdr : MapHeader := { mh with mapVersionMagic := MAP_VERSION_MAGIC }
  let fields0 := vectorResize m.m_fields hdr.sizeX []
  let fields := forLoop hdr.sizeX (fun ix fs =>
    let fs1 := fs.set ix []
    let fs2 := fs1.set ix (vectorResize (fs1.getD ix []) hdr.sizeY zeroField)
    forLoop hdr.sizeY (fun iy fs3 =>
      let fs4 := setCell fs3 ix iy { cellAt fs3 ix iy with type := hdr.defaultFieldType }
      let fs5 := setCell fs4 ix iy { cellAt fs4 ix iy with texture := hdr.defaultFieldTexture }
      setCell fs5 ix iy { cellAt fs5 ix iy with flags := hdr.defaultFieldFlags }) fs2) fields0
  { m with m_header := hdr, m_fields := fields }

/-- The method `Map::SetId`. -/
def SetId (m : Map) (id : Nat) : Map :=
  { m with m_header := { m.m_header with mapId := id } }

/-- The method `Map::GetId`. -/
def GetId (m : Map) : Nat := m.m_header.mapId

/-- The range test shared by `SetFieldContents` and `GetField`:
`m_fields.size() <= x || m_fields[x].size() <= y`. -/
def outOfRange (m : Map) (x y : Nat) : Bool :=
  decide (m.m_fields.length ≤ x) || decide ((m.m_fields.getD x []).length ≤ y)

/-- The method `Map::SetFieldContents`: returns the new map and the diagnostics emitted. -/
def SetFieldContents (m : Map) (x y type texture flags : Nat) : Map × List LogEntry :=
  if outOfRange m x y then
    (m, [LogEntry.setNonexistantField x y])
  else
    let fs0 := setCell m.m_fields x y zeroField
    let fs1 := setCell fs0 x y { cellAt fs0 x y with type := type }
    let fs2 := setCell fs1 x y { cellAt fs1 x y with texture := texture }
    let fs3 := setCell fs2 x y { cellAt fs2 x y with flags := flags }
    ({ m with m_fields := fs3 }, [])

/-- The method `Map::GetField`: `none` is the null pointer. -/
def GetField (m : Map) (x y : Nat) : Option MapField :=
  if outOfRange m x y then none else some (cellAt m.m_fields x y)

/-- The method `Map::GetField_unsafe`. -/
def GetField_unsafe (m : Map) (x y : Nat) : MapField := cellAt m.m_fields x y

/-! ## Chunk geometry (`Map.cpp`) -/

/-- The method `Map::GetChunkIndexX`. -/
def GetChunkIndexX (MAP_CHUNK_SIZE_X : Nat) (startX : Nat) : Nat :=
  startX / MAP_CHUNK_SIZE_X

/-- The method `Map::GetChunkIndexY`. -/
def GetChunkIndexY (MAP_CHUNK_SIZE_Y : Nat) (startY : Nat) : Nat :=
  startY / MAP_CHUNK_SIZE_Y

/-- The method `Map::GetChunkStartX`; the product is a `uint32_t`. -/
def GetChunkStartX (MAP_CHUNK_SIZE_X : Nat) (indexX : Nat) : Nat :=
  (indexX * MAP_CHUNK_SIZE_X) % 2 ^ 32

/-- The method `Map::GetChunkStartY`; the product is a `uint32_t`. -/
def GetChunkStartY (MAP_CHUNK_SIZE_Y : Nat) (indexY : Nat) : Nat :=
  (indexY * MAP_CHUNK_SIZE_Y) % 2 ^ 32

/-- The four output references of `Map::GetCellSorroundingLimits`. -/
structure CellLimits where
  beginX : Nat
  beginY : Nat
  endX : Nat
  endY : Nat
deriving DecidableEq, Repr

/-- The expression `(uint32_t) size - 1`: the cast truncates, the subtraction wraps. -/
def sizeMinusOne (size : Nat) : Nat :=
  (size % 2 ^ 32 + (2 ^ 32 - 1)) % 2 ^ 32

/-- The method `Map::GetCellSorroundingLimits`, all sums in `uint32_t`. -/
def GetCellSorroundingLimits (MAP_CHUNK_SIZE_X MAP_CHUNK_SIZE_Y : Nat)
    (MAP_SORROUNDING_CELLS_X MAP_SORROUNDING_CELLS_Y : Nat)
    (m : Map) (cellX cellY : Nat) : CellLimits :=
  let beginX := if cellX > MAP_SORROUNDING_CELLS_X then cellX - MAP_SORROUNDING_CELLS_X else 0
  let beginY := if cellY > MAP_SORROUNDING_CELLS_Y then cellY - MAP_SORROUNDING_CELLS_Y else 0
  let limitX := GetChunkIndexX MAP_CHUNK_SIZE_X (sizeMinusOne m.m_fields.length)
  let limitY := GetChunkIndexY MAP_CHUNK_SIZE_Y (sizeMinusOne (m.m_fields.getD 0 []).length)
  let endX := if (cellX + MAP_SORROUNDING_CELLS_X) % 2 ^ 32 < limitX
    then (cellX + MAP_SORROUNDING_CELLS_X) % 2 ^ 32 else limitX
  let endY := if (cellY + MAP_SORROUNDING_CELLS_Y) % 2 ^ 32 < limitY
    then (cellY + MAP_SORROUNDING_CELLS_Y) % 2 ^ 32 else limitY
  ⟨beginX, beginY, endX, endY⟩

/-! ## Persistence (`Map.cpp`)

The file system and the map-record lookup are external collaborators. A file is its
list of bytes; `fwrite`/`fread` move whole object representations. -/

/-- Modelled from the spec: `MapDatabaseRecord` (of the absent `MapStorage.h`); the
lookup by map id returns a filename or "not found". -/
structure MapDatabaseRecord where
  filename : String
deriving DecidableEq, Repr

/-- The files of the host: contents by path, and whether `fopen_s` succeeds on the
path for reading and for writing. -/
structure FileSystem where
  content : String → Option (List Nat)
  canRead : String → Bool
  canWrite : String → Bool

/-- Little-endian object representation of a `uint32_t`. -/
def bytesOfU32 (n : Nat) : List Nat :=
  [n % 256, n / 256 % 256, n / 65536 % 256, n / 16777216 % 256]

/-- Little-endian object representation of a `uint16_t`. -/
def bytesOfU16 (n : Nat) : List Nat :=
  [n % 256, n / 256 % 256]

/-- The `uint32_t` held by the four bytes starting at `off`. -/
def u32OfBytes (b : List Nat) (off : Nat) : Nat :=
  b.getD off 0 + 256 * b.getD (off + 1) 0 + 65536 * b.getD (off + 2) 0
    + 16777216 * b.getD (off + 3) 0

/-- The `uint16_t` held by the two bytes starting at `off`. -/
def u16OfBytes (b : List Nat) (off : Nat) : Nat :=
  b.getD off 0 + 256 * b.getD (off + 1) 0

/-- Modelled from the spec: `sizeof(MapHeader)` for the layout of the persisted map
file (members in declaration order, natural alignment). -/
def sizeofMapHeader : Nat := 28

/-- Modelled from the spec: `sizeof(MapField)` (type:u16, textureRef:u32, flags:u32,
natural alignment). -/
def sizeofMapField : Nat := 12

/-- Modelled from the spec: the object representation of a `MapHeader` (`Map.h` is
absent): members in declaration order at their natural alignment, two padding bytes
after the 16-bit member. Padding is not tracked by the embedding and is written as 0. -/
def bytesOfMapHeader (h : MapHeader) : List Nat :=
  bytesOfU32 h.mapId ++ bytesOfU32 h.sizeX ++ bytesOfU32 h.sizeY
    ++ bytesOfU16 h.defaultFieldType ++ [0, 0]
    ++ bytesOfU32 h.defaultFieldTexture ++ bytesOfU32 h.defaultFieldFlags
    ++ bytesOfU32 h.mapVersionMagic

/-- Modelled from the spec: the `MapHeader` held by 28 bytes (inverse layout of
`bytesOfMapHeader`). -/
def mapHeaderOfBytes (b : List Nat) : MapHeader :=
  { mapId := u32OfBytes b 0
    sizeX := u32OfBytes b 4
    sizeY := u32OfBytes b 8
    defaultFieldType := u16OfBytes b 12
    defaultFieldTexture := u32OfBytes b 16
    defaultFieldFlags := u32OfBytes b 20
    mapVersionMagic := u32OfBytes b 24 }

/-- Modelled from the spec: the object representation of a `MapField` (`Map.h` is
absent): type:u16, two padding bytes, texture:u32, flags:u32. -/
def bytesOfMapField (f : MapField) : List Nat :=
  bytesOfU16 f.type ++ [0, 0] ++ bytesOfU32 f.texture ++ bytesOfU32 f.flags

/-- Modelled from the spec: the `MapField` held by 12 bytes (inverse layout of
`bytesOfMapField`). -/
def mapFieldOfBytes (b : List Nat) : MapField :=
  { type := u16OfBytes b 0, texture := u32OfBytes b 4, flags := u32OfBytes b 8 }

/-- The call `fopen_s(&f, path, "rb")`: the stream is the list of bytes still to be
read; `none` is the null `FILE*`. -/
def fopenRead (fs : FileSystem) (path : String) : Option (List Nat) :=
  if fs.canRead path then fs.content path else none

/-- The call `fread(dst, size, 1, f)`: with `size` bytes left it yields them and
advances; on a short read the destination is left as it was (`none`) and the stream is
at its end. -/
def fread (size : Nat) (f : List Nat) : Option (List Nat) × List Nat :=
  if size ≤ f.length then (some (f.take size), f.drop size) else (none, [])

/-- The call `fwrite(src, size, 1, f)` on a stream opened with "wb": appends the
object representation. -/
def fwrite (f : List Nat) (bytes : List Nat) : List Nat :=
  f ++ bytes

/-- The call `fclose(f)` on a stream opened for writing at `path`: the file now holds
the bytes written. -/
def fcloseWrite (fs : FileSystem) (path : String) (f : List Nat) : FileSystem :=
  { fs with content := fun p => if p = path then some f else fs.content p }

/-- The method `Map::LoadFromFile`: the result flag, the map afterwards and the
diagnostics emitted. `GetMapRecord` is the lookup `sMapStorage->GetMapRecord`. -/
def LoadFromFile (DATA_DIR : String) (GetMapRecord : Nat → Option MapDatabaseRecord)
    (fs : FileSystem) (m : Map) : Bool × Map × List LogEntry :=
  match GetMapRecord m.m_header.mapId with
  | none => (false, m, [LogEntry.loadNonexistantMap m.m_header.mapId])
  | some mrec =>
    let path := DATA_DIR ++ mrec.filename
    match fopenRead fs path with
    | none => (false, m, [LogEntry.couldNotOpenForReading mrec.filename])
    | some f0 =>
      let r0 := fread sizeofMapHeader f0
      let hdr := match r0.1 with
        | some b => mapHeaderOfBytes b
        | none => m.m_header
      let fields0 := vectorResize m.m_fields hdr.sizeX []
      let res := forLoop hdr.sizeX (fun x (st : List (List MapField) × List Nat) =>
        let fs1 := st.1.set x (vectorResize (st.1.getD x []) hdr.sizeY zeroField)
        forLoop hdr.sizeY (fun y (st2 : List (List MapField) × List Nat) =>
          let r := fread sizeofMapField st2.2
          match r.1 with
          | some b => (setCell st2.1 x y (mapFieldOfBytes b), r.2)
          | none => (st2.1, r.2)) (fs1, st.2)) (fields0, r0.2)
      (true, { m with m_header := hdr, m_fields := res.1 }, [])

/-- The method `Map::SaveToFile`: the file system afterwards and the diagnostics
emitted. -/
def SaveToFile (DATA_DIR : String) (GetMapRecord : Nat → Option MapDatabaseRecord)
    (fs : FileSystem) (m : Map) : FileSystem × List LogEntry :=
  match GetMapRecord m.m_header.mapId with
  | none => (fs, [LogEntry.saveNonexistantMap m.m_header.mapId])
  | some mrec =>
    let path := DATA_DIR ++ mrec.filename
    if fs.canWrite path then
      let f1 := fwrite [] (bytesOfMapHeader m.m_header)
      let f2 := forLoop m.m_header.sizeX (fun x f =>
        forLoop m.m_header.sizeY (fun y g =>
          fwrite g (bytesOfMapField (cellAt m.m_fields x y))) f) f1
      (fcloseWrite fs path f2, [])
    else
      (fs, [LogEntry.couldNotOpenForWriting mrec.filename])

/-! ## Update fields (`WorldObject.cpp`, `Gameobject.cpp`) -/

/-- The data members of `class WorldObject` that the embedding follows: the update
field words and the animation state. The floating-point position, the name and its
texture are not modelled. -/
structure WorldObject where
  m_updateFields : List Nat
  m_mapId : Nat
  m_animId : Nat
  m_animFrame : Nat
  m_animTimer : Nat
deriving DecidableEq, Repr

/-- The method `WorldObject::GetUInt32Value`. -/
def GetUInt32Value (o : WorldObject) (field : Nat) : Nat :=
  o.m_updateFields.getD field 0

/-- The method `WorldObject::SetUInt32Value`. -/
def SetUInt32Value (o : WorldObject) (field value : Nat) : WorldObject :=
  if o.m_updateFields.getD field 0 = value then o
  else { o with m_updateFields := o.m_updateFields.set field value }

/-- The method `WorldObject::SetUInt64Value`; `field + 1` is a `uint32_t` sum. -/
def SetUInt64Value (o : WorldObject) (field value : Nat) : WorldObject :=
  let o1 := SetUInt32Value o field (value &&& 0xFFFFFFFF)
  SetUInt32Value o1 ((field + 1) % 2 ^ 32) ((value >>> 32) &&& 0xFFFFFFFF)

/-- The method `WorldObject::GetUInt64Value`; the shift is a `uint64_t` shift. -/
def GetUInt64Value (o : WorldObject) (field : Nat) : Nat :=
  o.m_updateFields.getD field 0
    ||| ((o.m_updateFields.getD ((field + 1) % 2 ^ 32) 0 <<< 32) % 2 ^ 64)

/-- The method `WorldObject::GetGUID`. -/
def GetGUID (OBJECT_FIELD_GUID : Nat) (o : WorldObject) : Nat :=
  GetUInt64Value o OBJECT_FIELD_GUID

/-- The method `WorldObject::CreateUpdateFields` of the base class: nothing. -/
def WorldObject.CreateUpdateFields (o : WorldObject) : WorldObject := o

/-- The method `Gameobject::CreateUpdateFields`: a fresh zero-filled array of
`GAMEOBJECT_FIELDS_END` words. -/
def Gameobject.CreateUpdateFields (GAMEOBJECT_FIELDS_END : Nat) (o : WorldObject) : WorldObject :=
  let o1 := WorldObject.CreateUpdateFields o
  { o1 with m_updateFields := List.replicate GAMEOBJECT_FIELDS_END 0 }

/-- The method `WorldObject::InitializeObject`; `CreateUpdateFields` is the virtual
method of the dynamic type. Returns the object and the name queries sent through
`sGameplay->SendNameQuery`. -/
def WorldObject.InitializeObject (CreateUpdateFields : WorldObject → WorldObject)
    (OBJECT_FIELD_GUID : Nat) (o : WorldObject) (guid : Nat) : WorldObject × List Nat :=
  let o1 := CreateUpdateFields o
  let o2 := SetUInt64Value o1 OBJECT_FIELD_GUID guid
  (o2, [guid])

/-- The method `Gameobject::InitializeObject`. -/
def Gameobject.InitializeObject (GAMEOBJECT_FIELDS_END OBJECT_FIELD_GUID : Nat)
    (o : WorldObject) (guid : Nat) : WorldObject × List Nat :=
  WorldObject.InitializeObject (Gameobject.CreateUpdateFields GAMEOBJECT_FIELDS_END)
    OBJECT_FIELD_GUID o guid

/-! ## Object set of a map (`Map.cpp`)

`ObjectSet` is a set of object pointers and `ObjectGuidMap` a map from GUID to object
pointer (both declared in the absent `Map.h`); they are lists here, a set without
repetition and an association list with one entry per key. -/

/-- The test `m_objectSet.find(obj) != m_objectSet.end()`. -/
def objectSetContains (s : List Nat) (obj : Nat) : Bool :=
  s.contains obj

/-- The call `m_objectSet.insert(obj)`. -/
def objectSetInsert (s : List Nat) (obj : Nat) : List Nat :=
  if s.contains obj then s else s ++ [obj]

/-- The call `m_objectSet.erase(obj)`. -/
def objectSetErase (s : List Nat) (obj : Nat) : List Nat :=
  s.filter (fun p => p != obj)

/-- The call `m_objectGuidMap.find(guid)`: the mapped pointer, `none` for `end()`. -/
def guidMapFind (g : List (Nat × Nat)) (guid : Nat) : Option Nat :=
  (g.find? (fun e => e.1 == guid)).map (fun e => e.2)

/-- The assignment `m_objectGuidMap[guid] = obj`. -/
def guidMapAssign (g : List (Nat × Nat)) (guid obj : Nat) : List (Nat × Nat) :=
  if (guidMapFind g guid).isSome then
    g.map (fun e => if e.1 == guid then (guid, obj) else e)
  else g ++ [(guid, obj)]

/-- The call `m_objectGuidMap.erase(itr)` for the entry found under `guid`. -/
def guidMapErase (g : List (Nat × Nat)) (guid : Nat) : List (Nat × Nat) :=
  g.filter (fun e => e.1 != guid)

/-- The method `Map::AddWorldObject`; `heap` gives the object behind each pointer. -/
def AddWorldObject (OBJECT_FIELD_GUID : Nat) (heap : Nat → WorldObject) (m : Map) (obj : Nat) : Map :=
  if objectSetContains m.m_objectSet obj then m
  else
    let gm := guidMapAssign m.m_objectGuidMap (GetGUID OBJECT_FIELD_GUID (heap obj)) obj
    { m with m_objectGuidMap := gm, m_objectSet := objectSetInsert m.m_objectSet obj }

/-- The method `Map::RemoveWorldObject(WorldObject*)`. -/
def RemoveWorldObject (OBJECT_FIELD_GUID : Nat) (heap : Nat → WorldObject) (m : Map) (obj : Nat) : Map :=
  if objectSetContains m.m_objectSet obj then
    let guid := GetGUID OBJECT_FIELD_GUID (heap obj)
    let gm := match guidMapFind m.m_objectGuidMap guid with
      | some _ => guidMapErase m.m_objectGuidMap guid
      | none => m.m_objectGuidMap
    { m with m_objectGuidMap := gm, m_objectSet := objectSetErase m.m_objectSet obj }
  else m

/-- The method `Map::RemoveWorldObject(uint64_t)`. -/
def RemoveWorldObjectByGuid (OBJECT_FIELD_GUID : Nat) (heap : Nat → WorldObject) (m : Map)
    (guid : Nat) : Map :=
  match guidMapFind m.m_objectGuidMap guid with
  | some obj => RemoveWorldObject OBJECT_FIELD_GUID heap m obj
  | none => m

/-- The method `Map::GetWorldObject`: `none` is the null pointer. -/
def GetWorldObject (m : Map) (guid : Nat) : Option Nat :=
  guidMapFind m.m_objectGuidMap guid

/-- One call on the object set of a map. -/
inductive ObjectCall where
  | add (obj : Nat)
  | remove (obj : Nat)
  | removeGuid (guid : Nat)
deriving DecidableEq, Repr

/-- Runs one call on the object set. -/
def runObjectCall (OBJECT_FIELD_GUID : Nat) (heap : Nat → WorldObject) (m : Map) : ObjectCall → Map
  | ObjectCall.add obj => AddWorldObject OBJECT_FIELD_GUID heap m obj
  | ObjectCall.remove obj => RemoveWorldObject OBJECT_FIELD_GUID heap m obj
  | ObjectCall.removeGuid guid => RemoveWorldObjectByGuid OBJECT_FIELD_GUID heap m guid

/-- Runs a sequence of calls on the object set, first call first. -/
def runObjectCalls (OBJECT_FIELD_GUID : Nat) (heap : Nat → WorldObject) (m : Map)
    (calls : List ObjectCall) : Map :=
  calls.foldl (runObjectCall OBJECT_FIELD_GUID heap) m

/-- One call of `SetFieldContents` with its arguments. -/
structure FieldWrite where
  x : Nat
  y : Nat
  type : Nat
  texture : Nat
  flags : Nat
deriving DecidableEq, Repr

/-- Runs a sequence of `SetFieldContents` calls, first call first. -/
def runFieldWrites (m : Map) (ws : List FieldWrite) : Map :=
  ws.foldl (fun acc w => (SetFieldContents acc w.x w.y w.type w.texture w.flags).1) m

/-! ## Well-typedness of the naturals that stand for machine integers -/

/-- The members of a `MapField` fit their C++ types. -/
def MapField.WellTyped (f : MapField) : Prop :=
  f.type < 2 ^ 16 ∧ f.texture < 2 ^ 32 ∧ f.flags < 2 ^ 32

/-- The members of a `MapHeader` fit their C++ types. -/
def MapHeader.WellTyped (h : MapHeader) : Prop :=
  h.mapId < 2 ^ 32 ∧ h.sizeX < 2 ^ 32 ∧ h.sizeY < 2 ^ 32 ∧ h.defaultFieldType < 2 ^ 16
    ∧ h.defaultFieldTexture < 2 ^ 32 ∧ h.defaultFieldFlags < 2 ^ 32
    ∧ h.mapVersionMagic < 2 ^ 32

/-- The arguments of a `SetFieldContents` call fit their C++ types. -/
def FieldWrite.WellTyped (w : FieldWrite) : Prop :=
  w.x < 2 ^ 32 ∧ w.y < 2 ^ 32 ∧ w.type < 2 ^ 16 ∧ w.texture < 2 ^ 32 ∧ w.flags < 2 ^ 32

/-- The grid has `sx` columns of `sy` cells each. -/
def GridShape (fields : List (List MapField)) (sx sy : Nat) : Prop :=
  fields.length = sx ∧ ∀ col ∈ fields, col.length = sy

/-! ## Predicates and sample data used by the statements -/

/-- All cells of a grid fit their C++ types. -/
def CellsWellTyped (fields : List (List MapField)) : Prop :=
  ∀ col ∈ fields, ∀ c ∈ col, MapField.WellTyped c

/-- The bytes of column `x` of a grid with `sy` rows, as `SaveToFile` writes them. -/
def columnBytes (F : List (List MapField)) (sy x : Nat) : List Nat :=
  (List.range sy).flatMap (fun y => bytesOfMapField (cellAt F x y))

/-- Object-set consistency as the specification words it: every key of the GUID index
maps to an object of the identity set, and every object of the identity set has its
GUID among the keys of the index. -/
def ObjectSetConsistent (OBJECT_FIELD_GUID : Nat) (heap : Nat → WorldObject) (m : Map) : Prop :=
  (∀ e ∈ m.m_objectGuidMap, ∀ o, GetWorldObject m e.1 = some o → o ∈ m.m_objectSet)
    ∧ (∀ e ∈ m.m_objectGuidMap, (GetWorldObject m e.1).isSome = true)
    ∧ (∀ o ∈ m.m_objectSet,
        (guidMapFind m.m_objectGuidMap (GetGUID OBJECT_FIELD_GUID (heap o))).isSome = true)

instance (G : Nat) (heap : Nat → WorldObject) (m : Map) :
    Decidable (ObjectSetConsistent G heap m) := by
  unfold ObjectSetConsistent
  infer_instance

/-- A heap in which the objects at addresses 1 and 2 are game objects initialised with
the same GUID 7, every other address holding a game object whose GUID is 9. -/
def sharedGuidHeap : Nat → WorldObject := fun p =>
  (Gameobject.InitializeObject 4 0 ⟨[], 0, 0, 0, 0⟩ (if p = 1 ∨ p = 2 then 7 else 9)).1

/-- Every entry the GUID index can return is an object of the identity set filed under
its own GUID. -/
def GuidIndexSound (OBJECT_FIELD_GUID : Nat) (heap : Nat → WorldObject) (m : Map) : Prop :=
  ∀ g o, guidMapFind m.m_objectGuidMap g = some o →
    o ∈ m.m_objectSet ∧ GetGUID OBJECT_FIELD_GUID (heap o) = g

/-- Every object of the identity set is found in the GUID index under its GUID. -/
def SetIndexed (OBJECT_FIELD_GUID : Nat) (heap : Nat → WorldObject) (m : Map) : Prop :=
  ∀ o ∈ m.m_objectSet,
    guidMapFind m.m_objectGuidMap (GetGUID OBJECT_FIELD_GUID (heap o)) = some o

/-- A heap in which the object at address `p` is a game object initialised with GUID `p`. -/
def distinctGuidHeap : Nat → WorldObject := fun p =>
  (Gameobject.InitializeObject 4 0 ⟨[], 0, 0, 0, 0⟩ p).1

/-- A map holding a 40 x 20 grid of zero cells, as `InitEmpty` builds it. -/
def exampleGridMap : Map :=
  InitEmpty 1 Map.new ⟨1, 40, 20, 0, 0, 0, 0⟩

/-- A map-record lookup that knows map 1 only. -/
def exampleGetMapRecord : Nat → Option MapDatabaseRecord := fun id =>
  if id = 1 then some ⟨"first.map"⟩ else none

/-- A host with no files yet, on which every path can be opened. -/
def exampleFileSystem : FileSystem :=
  ⟨fun _ => none, fun _ => true, fun _ => true⟩

instance (f : MapField) : Decidable f.WellTyped := by
  unfold MapField.WellTyped
  infer_instance

instance (h : MapHeader) : Decidable h.WellTyped := by
  unfold MapHeader.WellTyped
  infer_instance

instance (w : FieldWrite) : Decidable w.WellTyped := by
  unfold FieldWrite.WellTyped
  infer_instance

instance (fields : List (List MapField)) (sx sy : Nat) : Decidable (GridShape fields sx sy) := by
  unfold GridShape
  infer_instance

instance (fields : List (List MapField)) : Decidable (CellsWellTyped fields) := by
  unfold CellsWellTyped
  infer_instance

/-! ## Byte lanes of an update field (`WorldObject.cpp`) -/

/-- The operator `~` on a 32-bit operand: every one of the 32 bits is flipped. -/
def complement32 (x : Nat) : Nat :=
  0xFFFFFFFF ^^^ (x % 2 ^ 32)

/-- The unchanged-value test of `WorldObject::SetUByteValue`,
`m_updateFields[field] >> (offset * 8) == value`; when it holds the method returns
before the write. -/
def byteUnchangedGuard (o : WorldObject) (field offset value : Nat) : Bool :=
  decide (o.m_updateFields.getD field 0 >>> (offset * 8) = value)

/-- The method `WorldObject::SetUByteValue`. The operands `0xFF << (offset * 8)` and
`value << (offset * 8)` are 32-bit patterns. -/
def SetUByteValue (o : WorldObject) (field offset value : Nat) : WorldObject :=
  if offset > 3 then o
  else if byteUnchangedGuard o field offset value then o
  else
    let word := (o.m_updateFields.getD field 0 &&& complement32 (0xFF <<< (offset * 8)))
      ||| ((value <<< (offset * 8)) % 2 ^ 32)
    { o with m_updateFields := o.m_updateFields.set field word }

/-- The method `WorldObject::SetByteValue`; the cast `(uint8_t)value` of an `int8_t`
reduces modulo 256. -/
def SetByteValue (o : WorldObject) (field offset : Nat) (value : Int) : WorldObject :=
  SetUByteValue o field offset (value % 256).toNat

/-- The method `WorldObject::GetUByteValue`; the `uint8_t` result keeps the low eight
bits of the shifted word. -/
def GetUByteValue (o : WorldObject) (field offset : Nat) : Nat :=
  (o.m_updateFields.getD field 0 >>> (offset * 8)) % 2 ^ 8

/-! ## Animation state (`WorldObject.cpp`)

The image storage, the clock and the drawing layer are external collaborators: the
record lookup `sImageStorage->GetImageAnimationRecord` and the helpers `_isMovementAnim`
and `getMSTimeDiff` are function parameters, every `getMSTime()` call is a parameter
holding the value read, and the calls of `sDrawing->SetCanvasRedrawFlag()` are counted
in the result. -/

/-- Modelled from the spec: `ImageAnimationDatabaseRecord` (of the absent
`ImageStorage.h`); the lookup by texture reference and animation id returns
{frameBegin, frameEnd, frameDelay} or "not found". -/
structure ImageAnimationDatabaseRecord where
  frameBegin : Nat
  frameEnd : Nat
  frameDelay : Nat
deriving DecidableEq, Repr

/-- The frame a freshly selected or wrapped animation starts at: the first frame, or
the second one for a movement animation of more than one frame. This is the `if`/`else`
that `SetAnimId` and `Update` share; `frameBegin + 1` is a `uint32_t` sum. -/
def startFrame (isMovement : Bool) (animres : ImageAnimationDatabaseRecord) : Nat :=
  if !isMovement || decide ((animres.frameBegin + 1) % 2 ^ 32 ≥ animres.frameEnd) then
    animres.frameBegin
  else (animres.frameBegin + 1) % 2 ^ 32

/-- The method `WorldObject::SetAnimId`: the object afterwards and the number of redraw
requests sent. -/
def SetAnimId (ANIM_IDLE OBJECT_FIELD_IMAGEID : Nat) (_isMovementAnim : Nat → Bool)
    (GetImageAnimationRecord : Nat → Nat → Option ImageAnimationDatabaseRecord)
    (getMSTime : Nat) (o : WorldObject) (animId : Nat) : WorldObject × Nat :=
  if o.m_animId = animId then (o, 0)
  else
    let textureId := GetUInt32Value o OBJECT_FIELD_IMAGEID
    if textureId = 0 then (o, 0)
    else
      match GetImageAnimationRecord textureId animId with
      | none =>
        if animId = ANIM_IDLE then
          let o1 :=
            if _isMovementAnim o.m_animId then
              match GetImageAnimationRecord textureId o.m_animId with
              | some animres2 => { o with m_animFrame := animres2.frameBegin }
              | none => o
            else { o with m_animFrame := 0 }
          ({ o1 with m_animId := ANIM_IDLE, m_animTimer := getMSTime }, 1)
        else (o, 0)
      | some animres =>
        ({ o with m_animId := animId,
                  m_animFrame := startFrame (_isMovementAnim animId) animres,
                  m_animTimer := getMSTime }, 1)

/-- The method `WorldObject::Update`: the object afterwards and the number of redraw
requests sent. `nowTest` is the clock read in the condition, `nowSet` the clock read
for the timer; `m_animFrame++` is a `uint32_t` increment. -/
def WorldObject.Update (OBJECT_FIELD_IMAGEID : Nat) (_isMovementAnim : Nat → Bool)
    (GetImageAnimationRecord : Nat → Nat → Option ImageAnimationDatabaseRecord)
    (getMSTimeDiff : Nat → Nat → Nat) (nowTest nowSet : Nat) (o : WorldObject) :
    WorldObject × Nat :=
  let textureId := GetUInt32Value o OBJECT_FIELD_IMAGEID
  if textureId = 0 then (o, 0)
  else
    match GetImageAnimationRecord textureId o.m_animId with
    | none => (o, 0)
    | some animres =>
      if getMSTimeDiff o.m_animTimer nowTest > animres.frameDelay then
        let o1 := { o with m_animTimer := nowSet, m_animFrame := (o.m_animFrame + 1) % 2 ^ 32 }
        let o2 :=
          if o1.m_animFrame > animres.frameEnd then
            { o1 with m_animFrame := startFrame (_isMovementAnim o1.m_animId) animres }
          else o1
        (o2, 1)
      else (o, 0)

/-- Sample animation ids: 0 is idle, 1 is walking (a movement animation). -/
def sampleIsMovementAnim : Nat → Bool := fun a => a == 1

/-- Sample image storage in which texture 5 has a record for the idle animation 0,
frames 7 to 9, and for the walking animation 1, frames 3 to 6. -/
def sampleRecordsIdleKnown : Nat → Nat → Option ImageAnimationDatabaseRecord := fun t a =>
  if t = 5 ∧ a = 0 then some ⟨7, 9, 100⟩
  else if t = 5 ∧ a = 1 then some ⟨3, 6, 100⟩
  else none

/-- Sample image storage in which texture 5 has a record for the walking animation 1
only, frames 3 to 6. -/
def sampleRecordsWalkOnly : Nat → Nat → Option ImageAnimationDatabaseRecord := fun t a =>
  if t = 5 ∧ a = 1 then some ⟨3, 6, 100⟩ else none

/-- Sample image storage without any record. -/
def sampleRecordsNone : Nat → Nat → Option ImageAnimationDatabaseRecord := fun _ _ => none

/-- Sample object: image field (word 2) set to texture 5, walking (animation 1) at
frame 4, timer 1000. -/
def sampleWalkingObject : WorldObject :=
  ⟨[0, 0, 5, 0], 0, 1, 4, 1000⟩

/-- Sample object without texture (image field, word 2, is 0), idle at frame 0. -/
def sampleUntexturedObject : WorldObject :=
  ⟨[0, 0, 0, 0], 0, 0, 0, 1000⟩

/-- Sample clock difference: plain subtraction. -/
def sampleTimeDiff : Nat → Nat → Nat := fun old new => new - old

/-- The frame the specification gives for `SetAnimId(ANIM_IDLE)` on an object whose
current animation M is a movement animation: the `frameBegin` of the record for
(texture, M) if it exists, frame 0 otherwise. -/
def idleFrameAsSpecified
    (GetImageAnimationRecord : Nat → Nat → Option ImageAnimationDatabaseRecord)
    (o : WorldObject) (OBJECT_FIELD_IMAGEID : Nat) : Nat :=
  match GetImageAnimationRecord (GetUInt32Value o OBJECT_FIELD_IMAGEID) o.m_animId with
  | some r => r.frameBegin
  | none => 0

/-- Byte lane `j` of a word: bits `8 * j` to `8 * j + 7`. -/
def byteLane (w j : Nat) : Nat :=
  (w >>> (j * 8)) % 2 ^ 8

/-- The 32-bit word that has byte `v` in lane `k` and the bytes of `w` in the other three
lanes ("w with byte lane k replaced by v"). -/
def wordWithLane (w k v : Nat) : Nat :=
  (if 0 = k then v else byteLane w 0)
    + (if 1 = k then v else byteLane w 1) * 2 ^ 8
    + (if 2 = k then v else byteLane w 2) * 2 ^ 16
    + (if 3 = k then v else byteLane w 3) * 2 ^ 24

/-- Every entry (g, o) stored in the GUID index has o in the identity set and g equal
to the GUID of o. -/
def GuidEntriesSound (OBJECT_FIELD_GUID : Nat) (heap : Nat → WorldObject) (m : Map) : Prop :=
  ∀ e ∈ m.m_objectGuidMap,
    e.2 ∈ m.m_objectSet ∧ GetGUID OBJECT_FIELD_GUID (heap e.2) = e.1

instance (G : Nat) (heap : Nat → WorldObject) (m : Map) :
    Decidable (GuidEntriesSound G heap m) := by
  unfold GuidEntriesSound
  infer_instance

/-- Sample image storage in which the walking animation 1 of texture 5 runs from frame 3
to the last 32-bit frame number 0xFFFFFFFF. -/
def sampleRecordsLastFrame : Nat → Nat → Option ImageAnimationDatabaseRecord := fun t a =>
  if t = 5 ∧ a = 1 then some ⟨3, 0xFFFFFFFF, 100⟩ else none

/-- Sample object: texture 5, walking (animation 1) at the last 32-bit frame number
0xFFFFFFFF, timer 1000. -/
def sampleLastFrameObject : WorldObject :=
  ⟨[0, 0, 5, 0], 0, 1, 0xFFFFFFFF, 1000⟩

/-! ## Theorems -/

theorem forLoop_zero {σ : Type} (body : Nat → σ → σ) (s : σ) : forLoop 0 body s = s := rfl

theorem forLoop_succ {σ : Type} (n : Nat) (body : Nat → σ → σ) (s : σ) :
    forLoop (n + 1) body s = body n (forLoop n body s) := by
  simp [forLoop, List.range_succ, List.foldl_append]

theorem forLoop_congr_inv {σ : Type} (P : σ → Prop) (n : Nat) (body body2 : Nat → σ → σ) (s : σ)
    (h0 : P s) (hstep : ∀ i t, i < n → P t → P (body2 i t))
    (heq : ∀ i t, i < n → P t → body i t = body2 i t) :
    forLoop n body s = forLoop n body2 s ∧ P (forLoop n body2 s) := by
  induction n with
  | zero => exact ⟨rfl, h0⟩
  | succ k ih =>
    have ih2 := ih (fun i t hi => hstep i t (by omega)) (fun i t hi => heq i t (by omega))
    rw [forLoop_succ, forLoop_succ, ih2.1]
    exact ⟨heq k _ (by omega) ih2.2, hstep k _ (by omega) ih2.2⟩

theorem forLoop_set_eq {α : Type} (v : α) (n : Nat) (l : List α) (hn : n ≤ l.length) :
    forLoop n (fun i t => t.set i v) l = List.replicate n v ++ l.drop n := by
  induction n with
  | zero => simp [forLoop_zero]
  | succ k ih =>
    rw [forLoop_succ, ih (by omega)]
    apply List.ext_getElem?
    intro j
    simp only [List.getElem?_set, List.getElem?_append, List.getElem?_replicate, List.length_append,
      List.length_replicate, List.length_drop, List.getElem?_drop]
    by_cases h1 : k = j
    · subst h1
      simp
      omega
    · by_cases h2 : j < k
      · have h3 : j < k + 1 := by omega
        simp [h1, h2, h3]
      · have h3 : ¬ j < k + 1 := by omega
        simp [h1, h2, h3]
        congr 1
        omega

theorem getD_set_same {α : Type} (l : List α) (i : Nat) (v d : α) (h : i < l.length) :
    (l.set i v).getD i d = v := by
  simp [List.getD_eq_getElem?_getD, List.getElem?_set, h]

theorem cellAt_setCell_same (fs : List (List MapField)) (x y : Nat) (f : MapField)
    (hx : x < fs.length) (hy : y < (fs.getD x []).length) :
    cellAt (setCell fs x y f) x y = f := by
  unfold cellAt setCell
  rw [getD_set_same _ _ _ _ hx, getD_set_same _ _ _ _ hy]

theorem setCell_setCell (fs : List (List MapField)) (x y : Nat) (f g : MapField)
    (hx : x < fs.length) :
    setCell (setCell fs x y f) x y g = setCell fs x y g := by
  unfold setCell
  rw [getD_set_same _ _ _ _ hx, List.set_set, List.set_set]

theorem setCell_length (fs : List (List MapField)) (x y : Nat) (f : MapField) :
    (setCell fs x y f).length = fs.length := by
  simp [setCell]

theorem setCell_col_length (fs : List (List MapField)) (x y : Nat) (f : MapField) (x2 : Nat) :
    ((setCell fs x y f).getD x2 []).length = (fs.getD x2 []).length := by
  unfold setCell
  by_cases hx : x < fs.length
  · by_cases h : x = x2
    · subst h
      rw [getD_set_same _ _ _ _ hx]
      simp
    · simp [List.getD_eq_getElem?_getD, List.getElem?_set, h]
  · rw [List.set_eq_of_length_le (by omega)]

/-- Three member assignments through `m_fields[x][y]` amount to one record write. -/
theorem setCell_members (fs : List (List MapField)) (x y t tex fl : Nat)
    (hx : x < fs.length) (hy : y < (fs.getD x []).length) :
    (let fs4 := setCell fs x y { cellAt fs x y with type := t }
     let fs5 := setCell fs4 x y { cellAt fs4 x y with texture := tex }
     setCell fs5 x y { cellAt fs5 x y with flags := fl }) = setCell fs x y ⟨t, tex, fl⟩ := by
  simp only
  have h4 : y < ((setCell fs x y { cellAt fs x y with type := t }).getD x []).length := by
    rw [setCell_col_length]; exact hy
  rw [cellAt_setCell_same _ _ _ _ hx hy, setCell_setCell _ _ _ _ _ hx,
    cellAt_setCell_same _ _ _ _ hx hy, setCell_setCell _ _ _ _ _ hx]

theorem set_replicate_append_drop {α : Type} (v : α) (k : Nat) (l : List α) (hk : k < l.length) :
    (List.replicate k v ++ l.drop k).set k v = List.replicate (k + 1) v ++ l.drop (k + 1) := by
  rw [← forLoop_set_eq v k l (by omega), ← forLoop_set_eq v (k + 1) l (by omega), forLoop_succ]

theorem set_getD_self {α : Type} (l : List α) (i : Nat) (d : α) (h : i < l.length) :
    l.set i (l.getD i d) = l := by
  apply List.ext_getElem?
  intro j
  by_cases hj : i = j
  · subst hj
    simp [List.getElem?_set, List.getD_eq_getElem?_getD, h]
  · simp [List.getElem?_set, hj]

theorem initEmpty_inner (dt dtex dfl ix : Nat) (fs : List (List MapField)) (hx : ix < fs.length)
    (n : Nat) (hn : n ≤ (fs.getD ix []).length) :
    forLoop n (fun iy fs3 =>
      let fs4 := setCell fs3 ix iy { cellAt fs3 ix iy with type := dt }
      let fs5 := setCell fs4 ix iy { cellAt fs4 ix iy with texture := dtex }
      setCell fs5 ix iy { cellAt fs5 ix iy with flags := dfl }) fs
      = fs.set ix (List.replicate n ⟨dt, dtex, dfl⟩ ++ (fs.getD ix []).drop n) := by
  induction n with
  | zero =>
    rw [forLoop_zero, List.replicate_zero, List.nil_append, List.drop_zero]
    exact (set_getD_self _ _ _ hx).symm
  | succ k ih =>
    rw [forLoop_succ, ih (by omega)]
    have hx2 : ix < (fs.set ix (List.replicate k (⟨dt, dtex, dfl⟩ : MapField)
        ++ (fs.getD ix []).drop k)).length := by simpa using hx
    have hy2 : k < ((fs.set ix (List.replicate k (⟨dt, dtex, dfl⟩ : MapField)
        ++ (fs.getD ix []).drop k)).getD ix []).length := by
      rw [getD_set_same _ _ _ _ hx]
      simp only [List.length_append, List.length_replicate, List.length_drop]
      omega
    rw [setCell_members _ _ _ _ _ _ hx2 hy2]
    unfold setCell
    rw [getD_set_same _ _ _ _ hx, List.set_set, set_replicate_append_drop _ _ _ (by omega)]

theorem vectorResize_length {α : Type} (v : List α) (n : Nat) (d : α) :
    (vectorResize v n d).length = n := by
  simp [vectorResize]
  omega

theorem vectorResize_nil {α : Type} (n : Nat) (d : α) :
    vectorResize ([] : List α) n d = List.replicate n d := by
  simp [vectorResize]

theorem initEmpty_outer (dt dtex dfl sy : Nat) (fs : List (List MapField))
    (n : Nat) (hn : n ≤ fs.length) :
    forLoop n (fun ix fs0 =>
      let fs1 := fs0.set ix []
      let fs2 := fs1.set ix (vectorResize (fs1.getD ix []) sy zeroField)
      forLoop sy (fun iy fs3 =>
        let fs4 := setCell fs3 ix iy { cellAt fs3 ix iy with type := dt }
        let fs5 := setCell fs4 ix iy { cellAt fs4 ix iy with texture := dtex }
        setCell fs5 ix iy { cellAt fs5 ix iy with flags := dfl }) fs2) fs
      = List.replicate n (List.replicate sy ⟨dt, dtex, dfl⟩) ++ fs.drop n := by
  rw [← forLoop_set_eq _ n fs hn]
  refine (forLoop_congr_inv (fun t => t.length = fs.length) n _ _ fs rfl ?_ ?_).1
  · intro i t _ ht
    simpa using ht
  · intro i t hi ht
    have hx : i < t.length := by omega
    simp only
    rw [getD_set_same _ _ _ _ hx, vectorResize_nil, List.set_set]
    have hx2 : i < (t.set i (List.replicate sy zeroField)).length := by simpa using hx
    rw [initEmpty_inner dt dtex dfl i _ hx2 sy (by rw [getD_set_same _ _ _ _ hx]; simp)]
    rw [getD_set_same _ _ _ _ hx, List.set_set]
    simp

theorem InitEmpty_fields (MAP_VERSION_MAGIC : Nat) (m : Map) (mh : MapHeader) :
    (InitEmpty MAP_VERSION_MAGIC m mh).m_fields
      = List.replicate mh.sizeX (List.replicate mh.sizeY
          ⟨mh.defaultFieldType, mh.defaultFieldTexture, mh.defaultFieldFlags⟩) := by
  unfold InitEmpty
  simp only
  rw [initEmpty_outer _ _ _ _ _ _ (by rw [vectorResize_length])]
  rw [List.drop_of_length_le (by rw [vectorResize_length])]
  simp

theorem outOfRange_eq_false (m : Map) (x y : Nat)
    (hx : x < m.m_fields.length) (hy : y < (m.m_fields.getD x []).length) :
    outOfRange m x y = false := by
  simp only [outOfRange, Bool.or_eq_false_iff, decide_eq_false_iff_not]
  omega

theorem outOfRange_eq_true (m : Map) (x y : Nat)
    (h : m.m_fields.length ≤ x ∨ (m.m_fields.getD x []).length ≤ y) :
    outOfRange m x y = true := by
  simp only [outOfRange, Bool.or_eq_true, decide_eq_true_eq]
  exact h

theorem SetFieldContents_inRange (m : Map) (x y type texture flags : Nat)
    (hx : x < m.m_fields.length) (hy : y < (m.m_fields.getD x []).length) :
    SetFieldContents m x y type texture flags
      = ({ m with m_fields := setCell m.m_fields x y ⟨type, texture, flags⟩ }, []) := by
  unfold SetFieldContents
  rw [outOfRange_eq_false m x y hx hy]
  simp only [Bool.false_eq_true, if_false]
  have hx0 : x < (setCell m.m_fields x y zeroField).length := by rw [setCell_length]; exact hx
  have hy0 : y < ((setCell m.m_fields x y zeroField).getD x []).length := by
    rw [setCell_col_length]; exact hy
  rw [setCell_members _ _ _ _ _ _ hx0 hy0, setCell_setCell _ _ _ _ _ hx]

/-- C1: for every map and every (x, y) inside the grid (x below the number of columns,
y below the length of column x), `GetField(x, y)` after
`SetFieldContents(x, y, type, texture, flags)` returns the record holding exactly the
written type, texture and flags. -/
theorem C1_getField_after_setFieldContents (m : Map) (x y type texture flags : Nat)
    (hx : x < m.m_fields.length) (hy : y < (m.m_fields.getD x []).length) :
    GetField (SetFieldContents m x y type texture flags).1 x y
      = some { type := type, texture := texture, flags := flags } := by
  rw [SetFieldContents_inRange m x y type texture flags hx hy]
  unfold GetField
  have hx1 : x < (setCell m.m_fields x y ⟨type, texture, flags⟩).length := by
    rw [setCell_length]; exact hx
  have hy1 : y < ((setCell m.m_fields x y ⟨type, texture, flags⟩).getD x []).length := by
    rw [setCell_col_length]; exact hy
  rw [outOfRange_eq_false _ x y hx1 hy1]
  simp only [Bool.false_eq_true, if_false]
  rw [cellAt_setCell_same _ _ _ _ hx hy]

theorem C1_witness :
    GetField (SetFieldContents { Map.new with m_fields := [[zeroField], [zeroField, zeroField]] }
      1 1 7 300 5).1 1 1 = some { type := 7, texture := 300, flags := 5 } :=
  C1_getField_after_setFieldContents
    { Map.new with m_fields := [[zeroField], [zeroField, zeroField]] } 1 1 7 300 5
    (by decide) (by decide)

/-- C2: for every map and every (x, y) outside the grid (x at or beyond the number of
columns, or y at or beyond the length of column x), `GetField(x, y)` returns absent, and
`SetFieldContents(x, y, ...)` leaves the whole map (header and every cell) unchanged and
sends exactly one error to the diagnostic sink. -/
theorem C2_outside_grid (m : Map) (x y type texture flags : Nat)
    (h : m.m_fields.length ≤ x ∨ (m.m_fields.getD x []).length ≤ y) :
    GetField m x y = none
      ∧ (SetFieldContents m x y type texture flags).1 = m
      ∧ (SetFieldContents m x y type texture flags).2 = [LogEntry.setNonexistantField x y] := by
  have ho := outOfRange_eq_true m x y h
  simp [GetField, SetFieldContents, ho]

theorem C2_witness :
    GetField { Map.new with m_fields := [[zeroField], [zeroField, zeroField]] } 0 1 = none
      ∧ (SetFieldContents { Map.new with m_fields := [[zeroField], [zeroField, zeroField]] }
          0 1 7 300 5).1 = { Map.new with m_fields := [[zeroField], [zeroField, zeroField]] }
      ∧ (SetFieldContents { Map.new with m_fields := [[zeroField], [zeroField, zeroField]] }
          0 1 7 300 5).2 = [LogEntry.setNonexistantField 0 1] :=
  C2_outside_grid { Map.new with m_fields := [[zeroField], [zeroField, zeroField]] } 0 1 7 300 5
    (by decide)

theorem GetField_replicate (m : Map) (sx sy : Nat) (d : MapField)
    (hf : m.m_fields = List.replicate sx (List.replicate sy d)) (x y : Nat) :
    GetField m x y = if x < sx ∧ y < sy then some d else none := by
  unfold GetField outOfRange cellAt
  rw [hf]
  by_cases hx : x < sx
  · by_cases hy : y < sy
    · simp [List.getD_eq_getElem?_getD, List.getElem?_replicate, hx, hy]
    · simp [List.getD_eq_getElem?_getD, List.getElem?_replicate, hx, hy]
  · simp [hx]

/-- C3: for every header h and every prior map state, after `InitEmpty(h)` the stored
header is h with `mapVersionMagic` set to `MAP_VERSION_MAGIC`, `GetField(x, y)` returns
the header defaults for every x below `h.sizeX` and y below `h.sizeY`, and absent for
every other (x, y); in the 4 x 4 scenario with defaults (2, 100, 0), `GetField(3, 3)` is
{2, 100, 0} and `GetField(4, 0)` is absent. -/
theorem C3_initEmpty (MAP_VERSION_MAGIC : Nat) (m : Map) (h : MapHeader) :
    (InitEmpty MAP_VERSION_MAGIC m h).m_header
        = { h with mapVersionMagic := MAP_VERSION_MAGIC }
      ∧ (∀ x y, x < h.sizeX → y < h.sizeY →
          GetField (InitEmpty MAP_VERSION_MAGIC m h) x y
            = some { type := h.defaultFieldType, texture := h.defaultFieldTexture,
                     flags := h.defaultFieldFlags })
      ∧ (∀ x y, ¬ (x < h.sizeX ∧ y < h.sizeY) →
          GetField (InitEmpty MAP_VERSION_MAGIC m h) x y = none)
      ∧ GetField (InitEmpty MAP_VERSION_MAGIC m ⟨1, 4, 4, 2, 100, 0, 0⟩) 3 3
          = some { type := 2, texture := 100, flags := 0 }
      ∧ GetField (InitEmpty MAP_VERSION_MAGIC m ⟨1, 4, 4, 2, 100, 0, 0⟩) 4 0 = none := by
  refine ⟨rfl, ?_, ?_, ?_, ?_⟩
  · intro x y hx hy
    rw [GetField_replicate _ _ _ _ (InitEmpty_fields MAP_VERSION_MAGIC m h), if_pos ⟨hx, hy⟩]
  · intro x y hxy
    rw [GetField_replicate _ _ _ _ (InitEmpty_fields MAP_VERSION_MAGIC m h), if_neg hxy]
  · rw [GetField_replicate _ _ _ _ (InitEmpty_fields MAP_VERSION_MAGIC m _)]
    simp
  · rw [GetField_replicate _ _ _ _ (InitEmpty_fields MAP_VERSION_MAGIC m _)]
    simp

theorem C3_witness :
    GetField (InitEmpty 77 { Map.new with m_fields := [[⟨9, 9, 9⟩, ⟨8, 8, 8⟩], [], [⟨5, 5, 5⟩]] }
      ⟨1, 2, 1, 3, 4, 5, 0⟩) 1 0 = some { type := 3, texture := 4, flags := 5 } :=
  (C3_initEmpty 77 { Map.new with m_fields := [[⟨9, 9, 9⟩, ⟨8, 8, 8⟩], [], [⟨5, 5, 5⟩]] }
    ⟨1, 2, 1, 3, 4, 5, 0⟩).2.1 1 0 (by decide) (by decide)

theorem bytesOfMapField_length (f : MapField) : (bytesOfMapField f).length = sizeofMapField := rfl

theorem bytesOfMapHeader_length (h : MapHeader) : (bytesOfMapHeader h).length = sizeofMapHeader := rfl

theorem mapFieldOfBytes_bytesOfMapField (f : MapField) (hf : f.WellTyped) :
    mapFieldOfBytes (bytesOfMapField f) = f := by
  obtain ⟨t, tex, fl⟩ := f
  obtain ⟨h1, h2, h3⟩ := hf
  simp only at h1 h2 h3
  simp only [mapFieldOfBytes, bytesOfMapField, bytesOfU16, bytesOfU32, u16OfBytes, u32OfBytes,
    List.cons_append, List.nil_append, List.getD_cons_zero, List.getD_cons_succ, MapField.mk.injEq]
  refine ⟨?_, ?_, ?_⟩ <;> omega

theorem mapHeaderOfBytes_bytesOfMapHeader (h : MapHeader) (hh : h.WellTyped) :
    mapHeaderOfBytes (bytesOfMapHeader h) = h := by
  obtain ⟨a, b, c, d, e, f, g⟩ := h
  obtain ⟨h1, h2, h3, h4, h5, h6, h7⟩ := hh
  simp only at h1 h2 h3 h4 h5 h6 h7
  simp only [mapHeaderOfBytes, bytesOfMapHeader, bytesOfU16, bytesOfU32, u16OfBytes, u32OfBytes,
    List.cons_append, List.nil_append, List.getD_cons_zero, List.getD_cons_succ, MapHeader.mk.injEq]
  refine ⟨?_, ?_, ?_, ?_, ?_, ?_, ?_⟩ <;> omega

theorem fread_append (size : Nat) (e rest : List Nat) (he : e.length = size) :
    fread size (e ++ rest) = (some e, rest) := by
  unfold fread
  have h1 : size ≤ (e ++ rest).length := by simp; omega
  rw [if_pos h1]
  subst he
  simp

/-- The bytes a write loop appends: the chunks `e 0`, ..., `e (n - 1)` in order. -/
theorem forLoop_fwrite (e : Nat → List Nat) (n : Nat) (f : List Nat) :
    forLoop n (fun i g => fwrite g (e i)) f = f ++ (List.range n).flatMap e := by
  induction n with
  | zero => simp [forLoop_zero]
  | succ k ih =>
    rw [forLoop_succ, ih]
    simp [fwrite, List.range_succ, List.flatMap_append]

theorem range_bind_succ (e : Nat → List Nat) (n : Nat) (rest : List Nat) :
    (List.range (n + 1)).flatMap e ++ rest = (List.range n).flatMap e ++ (e n ++ rest) := by
  simp [List.range_succ, List.flatMap_append]

theorem set_prefix_append_drop {α : Type} (pre l : List α) (v : α) (n : Nat)
    (hp : pre.length = n) (hn : n < l.length) :
    (pre ++ l.drop n).set n v = (pre ++ [v]) ++ l.drop (n + 1) := by
  apply List.ext_getElem?
  intro j
  simp only [List.getElem?_set, List.getElem?_append, List.length_append, List.length_drop,
    List.getElem?_drop, List.length_cons, List.length_nil, hp]
  by_cases h1 : n = j
  · subst h1
    have h2 : n < n + (l.length - n) := by omega
    simp [h2, hp]
  · by_cases h2 : j < n
    · have h3 : j < n + (0 + 1) := by omega
      simp [h1, h2, h3, List.getElem?_append, hp]
    · have h3 : ¬ j < n + (0 + 1) := by omega
      simp [h1, h2, h3]
      congr 1
      omega

theorem map_range_getD {α : Type} (l : List α) (d : α) (n : Nat) (hl : l.length = n) :
    (List.range n).map (fun i => l.getD i d) = l := by
  apply List.ext_getElem?
  intro j
  by_cases hj : j < n
  · have hj2 : j < l.length := by omega
    simp [List.getD_eq_getElem?_getD, hj, hj2]
  · have hj2 : l.length ≤ j := by omega
    simp [hj, List.getElem?_eq_none hj2]
    omega

theorem loadInner (x : Nat) (c : Nat → MapField) (hc : ∀ y, (c y).WellTyped)
    (fs : List (List MapField)) (hx : x < fs.length) (n : Nat)
    (hn : n ≤ (fs.getD x []).length) (rest : List Nat) :
    forLoop n (fun y (st2 : List (List MapField) × List Nat) =>
        let r := fread sizeofMapField st2.2
        match r.1 with
        | some b => (setCell st2.1 x y (mapFieldOfBytes b), r.2)
        | none => (st2.1, r.2))
      (fs, (List.range n).flatMap (fun y => bytesOfMapField (c y)) ++ rest)
      = (fs.set x ((List.range n).map c ++ (fs.getD x []).drop n), rest) := by
  induction n generalizing rest with
  | zero =>
    simp only [forLoop_zero, List.range_zero, List.flatMap_nil, List.nil_append, List.map_nil,
      List.drop_zero]
    rw [set_getD_self _ _ _ hx]
  | succ k ih =>
    rw [forLoop_succ, range_bind_succ, ih (by omega)]
    simp only
    rw [fread_append _ _ _ (bytesOfMapField_length _)]
    simp only
    rw [mapFieldOfBytes_bytesOfMapField _ (hc k)]
    unfold setCell
    rw [getD_set_same _ _ _ _ hx, List.set_set,
      set_prefix_append_drop _ _ _ _ (by simp) (by omega)]
    simp [List.range_succ]

theorem zeroField_wellTyped : zeroField.WellTyped := by
  simp [MapField.WellTyped, zeroField]

theorem getD_mem_or_default {α : Type} (l : List α) (i : Nat) (d : α) :
    l.getD i d ∈ l ∨ l.getD i d = d := by
  rw [List.getD_eq_getElem?_getD]
  by_cases h : i < l.length
  · left
    rw [List.getElem?_eq_getElem h]
    exact List.getElem_mem h
  · right
    rw [List.getElem?_eq_none (by omega)]
    rfl

theorem cellAt_wellTyped (F : List (List MapField)) (hF : CellsWellTyped F) (x y : Nat) :
    (cellAt F x y).WellTyped := by
  unfold cellAt
  rcases getD_mem_or_default F x [] with hcol | hcol
  · rcases getD_mem_or_default (F.getD x []) y zeroField with hc | hc
    · exact hF _ hcol _ hc
    · rw [hc]; exact zeroField_wellTyped
  · rw [hcol]
    exact zeroField_wellTyped

theorem drop_vectorResize {α : Type} (v : List α) (n : Nat) (d : α) :
    (vectorResize v n d).drop n = [] :=
  List.drop_of_length_le (by rw [vectorResize_length])

theorem loadOuter (F : List (List MapField)) (hF : CellsWellTyped F) (sy : Nat)
    (fs : List (List MapField)) (n : Nat) (hn : n ≤ fs.length) (rest : List Nat) :
    forLoop n (fun x (st : List (List MapField) × List Nat) =>
        let fs1 := st.1.set x (vectorResize (st.1.getD x []) sy zeroField)
        forLoop sy (fun y (st2 : List (List MapField) × List Nat) =>
          let r := fread sizeofMapField st2.2
          match r.1 with
          | some b => (setCell st2.1 x y (mapFieldOfBytes b), r.2)
          | none => (st2.1, r.2)) (fs1, st.2))
      (fs, (List.range n).flatMap (columnBytes F sy) ++ rest)
      = ((List.range n).map (fun x => (List.range sy).map (fun y => cellAt F x y))
          ++ fs.drop n, rest) := by
  induction n generalizing rest with
  | zero => simp [forLoop_zero]
  | succ k ih =>
    rw [forLoop_succ, range_bind_succ, ih (by omega)]
    simp only
    have hk : k < ((List.range k).map (fun x => (List.range sy).map (fun y => cellAt F x y))
        ++ fs.drop k).length := by
      simp
      omega
    have hx1 : k < ((List.map (fun x => List.map (fun y => cellAt F x y) (List.range sy))
        (List.range k) ++ List.drop k fs).set k (vectorResize
          ((List.map (fun x => List.map (fun y => cellAt F x y) (List.range sy))
            (List.range k) ++ List.drop k fs).getD k []) sy zeroField)).length := by
      rw [List.length_set]; exact hk
    have h := loadInner k (fun y => cellAt F k y) (fun y => cellAt_wellTyped F hF k y) _ hx1 sy
      (by rw [getD_set_same _ _ _ _ hk, vectorResize_length]) rest
    unfold columnBytes
    rw [h, getD_set_same _ _ _ _ hk, List.set_set,
      drop_vectorResize, List.append_nil,
      set_prefix_append_drop _ _ _ _ (by simp) (by omega)]
    simp [List.range_succ]

theorem grid_eq_map_range (F : List (List MapField)) (sx sy : Nat) (hs : GridShape F sx sy) :
    (List.range sx).map (fun x => (List.range sy).map (fun y => cellAt F x y)) = F := by
  obtain ⟨h1, h2⟩ := hs
  have : (List.range sx).map (fun x => (List.range sy).map (fun y => cellAt F x y))
      = (List.range sx).map (fun x => F.getD x []) := by
    apply List.map_congr_left
    intro x hx
    have hx2 : x < F.length := by
      rw [h1]; exact List.mem_range.mp hx
    have hl : (F.getD x []).length = sy := by
      apply h2
      rw [List.getD_eq_getElem?_getD, List.getElem?_eq_getElem hx2]
      exact List.getElem_mem hx2
    exact map_range_getD _ zeroField sy hl
  rw [this]
  exact map_range_getD F [] sx h1

theorem save_bytes (F : List (List MapField)) (sx sy : Nat) (f1 : List Nat) :
    forLoop sx (fun x f =>
        forLoop sy (fun y g => fwrite g (bytesOfMapField (cellAt F x y))) f) f1
      = f1 ++ (List.range sx).flatMap (columnBytes F sy) := by
  simp only [forLoop_fwrite]
  exact forLoop_fwrite (columnBytes F sy) sx f1

theorem save_load_general (DATA_DIR : String) (GetMapRecord : Nat → Option MapDatabaseRecord)
    (fs : FileSystem) (m other : Map) (mrec : MapDatabaseRecord)
    (hh : m.m_header.WellTyped) (hs : GridShape m.m_fields m.m_header.sizeX m.m_header.sizeY)
    (hc : CellsWellTyped m.m_fields)
    (hrec : GetMapRecord m.m_header.mapId = some mrec)
    (hw : fs.canWrite (DATA_DIR ++ mrec.filename) = true)
    (hr : fs.canRead (DATA_DIR ++ mrec.filename) = true)
    (hid : other.m_header.mapId = m.m_header.mapId) :
    LoadFromFile DATA_DIR GetMapRecord (SaveToFile DATA_DIR GetMapRecord fs m).1 other
      = (true, { other with m_header := m.m_header, m_fields := m.m_fields }, []) := by
  unfold SaveToFile
  rw [hrec]
  simp only [hw, if_true]
  rw [save_bytes]
  unfold LoadFromFile
  rw [hid, hrec]
  simp only [fopenRead, fcloseWrite, hr, if_true, fwrite, List.nil_append]
  rw [fread_append _ _ _ (bytesOfMapHeader_length _)]
  simp only
  rw [mapHeaderOfBytes_bytesOfMapHeader _ hh]
  have h := loadOuter m.m_fields hc m.m_header.sizeY
    (vectorResize other.m_fields m.m_header.sizeX []) m.m_header.sizeX
    (by rw [vectorResize_length]) []
  rw [List.append_nil] at h
  rw [h, drop_vectorResize, List.append_nil, grid_eq_map_range _ _ _ hs]

theorem setCell_shape (fs : List (List MapField)) (x y : Nat) (f : MapField) (sx sy : Nat)
    (hs : GridShape fs sx sy) : GridShape (setCell fs x y f) sx sy := by
  obtain ⟨h1, h2⟩ := hs
  refine ⟨by rw [setCell_length]; exact h1, ?_⟩
  intro col hcol
  unfold setCell at hcol
  rcases List.mem_or_eq_of_mem_set hcol with h | h
  · exact h2 col h
  · rw [h, List.length_set]
    rcases getD_mem_or_default fs x [] with h3 | h3
    · exact h2 _ h3
    · by_cases hx : x < fs.length
      · have := h2 _ (List.getElem_mem hx)
        rw [List.getD_eq_getElem?_getD, List.getElem?_eq_getElem hx] 
        exact this
      · rw [List.set_eq_of_length_le (by omega)] at hcol
        rw [h] at hcol
        have := h2 _ hcol
        rw [List.length_set] at this
        exact this

theorem setCell_wellTyped (fs : List (List MapField)) (x y : Nat) (f : MapField)
    (hf : f.WellTyped) (hc : CellsWellTyped fs) : CellsWellTyped (setCell fs x y f) := by
  intro col hcol c hcmem
  unfold setCell at hcol
  rcases List.mem_or_eq_of_mem_set hcol with h | h
  · exact hc col h c hcmem
  · rw [h] at hcmem
    rcases List.mem_or_eq_of_mem_set hcmem with h2 | h2
    · rcases getD_mem_or_default fs x [] with h3 | h3
      · exact hc _ h3 c h2
      · rw [h3] at h2
        cases h2
    · rw [h2]; exact hf

theorem SetFieldContents_inv (m : Map) (w : FieldWrite) (hw : w.WellTyped) (sx sy : Nat)
    (hs : GridShape m.m_fields sx sy) (hc : CellsWellTyped m.m_fields) :
    (SetFieldContents m w.x w.y w.type w.texture w.flags).1.m_header = m.m_header
      ∧ GridShape (SetFieldContents m w.x w.y w.type w.texture w.flags).1.m_fields sx sy
      ∧ CellsWellTyped (SetFieldContents m w.x w.y w.type w.texture w.flags).1.m_fields := by
  by_cases h : w.x < m.m_fields.length ∧ w.y < (m.m_fields.getD w.x []).length
  · rw [SetFieldContents_inRange m _ _ _ _ _ h.1 h.2]
    refine ⟨rfl, setCell_shape _ _ _ _ _ _ hs, setCell_wellTyped _ _ _ _ ?_ hc⟩
    exact ⟨hw.2.2.1, hw.2.2.2.1, hw.2.2.2.2⟩
  · have h2 : m.m_fields.length ≤ w.x ∨ (m.m_fields.getD w.x []).length ≤ w.y := by omega
    have h3 : (SetFieldContents m w.x w.y w.type w.texture w.flags).1 = m := by
      simp [SetFieldContents, outOfRange_eq_true m _ _ h2]
    rw [h3]
    exact ⟨rfl, hs, hc⟩

theorem runFieldWrites_inv (ws : List FieldWrite) (hws : ∀ w ∈ ws, FieldWrite.WellTyped w)
    (m : Map) (sx sy : Nat)
    (hs : GridShape m.m_fields sx sy) (hc : CellsWellTyped m.m_fields) :
    (runFieldWrites m ws).m_header = m.m_header
      ∧ GridShape (runFieldWrites m ws).m_fields sx sy
      ∧ CellsWellTyped (runFieldWrites m ws).m_fields := by
  induction ws generalizing m with
  | nil => exact ⟨rfl, hs, hc⟩
  | cons w rest ih =>
    have h1 := SetFieldContents_inv m w (hws w (List.mem_cons_self _ _)) sx sy hs hc
    have h2 := ih (fun v hv => hws v (List.mem_cons_of_mem _ hv)) _ h1.2.1 h1.2.2
    unfold runFieldWrites at h2 ⊢
    rw [List.foldl_cons]
    exact ⟨h2.1.trans h1.1, h2.2.1, h2.2.2⟩

theorem InitEmpty_inv (MAP_VERSION_MAGIC : Nat) (m : Map) (h : MapHeader) (hh : h.WellTyped) :
    GridShape (InitEmpty MAP_VERSION_MAGIC m h).m_fields h.sizeX h.sizeY
      ∧ CellsWellTyped (InitEmpty MAP_VERSION_MAGIC m h).m_fields := by
  rw [InitEmpty_fields]
  refine ⟨⟨by simp, ?_⟩, ?_⟩
  · intro col hcol
    rw [List.eq_of_mem_replicate hcol]
    simp
  · intro col hcol c hcm
    rw [List.eq_of_mem_replicate hcol] at hcm
    rw [List.eq_of_mem_replicate hcm]
    exact ⟨hh.2.2.2.1, hh.2.2.2.2.1, hh.2.2.2.2.2.1⟩

/-- C4: for every map produced by `InitEmpty` followed by any sequence of
`SetFieldContents` calls, whose map id resolves to a file that can be opened for writing
and for reading, `SaveToFile` followed by `LoadFromFile` into any map carrying the same
id (whatever grid it held before; in particular the saved map itself) returns success
and yields the saved header and the saved grid, cell for cell, with the same dimensions. -/
theorem C4_save_load_roundtrip (DATA_DIR : String)
    (GetMapRecord : Nat → Option MapDatabaseRecord) (fs : FileSystem)
    (MAP_VERSION_MAGIC : Nat) (m0 : Map) (h : MapHeader) (ws : List FieldWrite) (other : Map)
    (mrec : MapDatabaseRecord)
    (hh : h.WellTyped) (hmagic : MAP_VERSION_MAGIC < 2 ^ 32)
    (hws : ∀ w ∈ ws, FieldWrite.WellTyped w)
    (hrec : GetMapRecord h.mapId = some mrec)
    (hw : fs.canWrite (DATA_DIR ++ mrec.filename) = true)
    (hr : fs.canRead (DATA_DIR ++ mrec.filename) = true)
    (hid : other.m_header.mapId = h.mapId) :
    (LoadFromFile DATA_DIR GetMapRecord
        (SaveToFile DATA_DIR GetMapRecord fs
          (runFieldWrites (InitEmpty MAP_VERSION_MAGIC m0 h) ws)).1 other).1 = true
      ∧ (LoadFromFile DATA_DIR GetMapRecord
        (SaveToFile DATA_DIR GetMapRecord fs
          (runFieldWrites (InitEmpty MAP_VERSION_MAGIC m0 h) ws)).1 other).2.1.m_header
          = (runFieldWrites (InitEmpty MAP_VERSION_MAGIC m0 h) ws).m_header
      ∧ (LoadFromFile DATA_DIR GetMapRecord
        (SaveToFile DATA_DIR GetMapRecord fs
          (runFieldWrites (InitEmpty MAP_VERSION_MAGIC m0 h) ws)).1 other).2.1.m_fields
          = (runFieldWrites (InitEmpty MAP_VERSION_MAGIC m0 h) ws).m_fields
      ∧ LoadFromFile DATA_DIR GetMapRecord
        (SaveToFile DATA_DIR GetMapRecord fs
          (runFieldWrites (InitEmpty MAP_VERSION_MAGIC m0 h) ws)).1
          (runFieldWrites (InitEmpty MAP_VERSION_MAGIC m0 h) ws)
          = (true, runFieldWrites (InitEmpty MAP_VERSION_MAGIC m0 h) ws, []) := by
  have hi := InitEmpty_inv MAP_VERSION_MAGIC m0 h hh
  have hr2 := runFieldWrites_inv ws hws (InitEmpty MAP_VERSION_MAGIC m0 h) h.sizeX h.sizeY
    hi.1 hi.2
  have hhdr : (runFieldWrites (InitEmpty MAP_VERSION_MAGIC m0 h) ws).m_header
      = { h with mapVersionMagic := MAP_VERSION_MAGIC } := hr2.1
  have hwt : (runFieldWrites (InitEmpty MAP_VERSION_MAGIC m0 h) ws).m_header.WellTyped := by
    rw [hhdr]
    exact ⟨hh.1, hh.2.1, hh.2.2.1, hh.2.2.2.1, hh.2.2.2.2.1, hh.2.2.2.2.2.1, hmagic⟩
  have hshape : GridShape (runFieldWrites (InitEmpty MAP_VERSION_MAGIC m0 h) ws).m_fields
      (runFieldWrites (InitEmpty MAP_VERSION_MAGIC m0 h) ws).m_header.sizeX
      (runFieldWrites (InitEmpty MAP_VERSION_MAGIC m0 h) ws).m_header.sizeY := by
    rw [hhdr]; exact hr2.2.1
  have hrec2 : GetMapRecord (runFieldWrites (InitEmpty MAP_VERSION_MAGIC m0 h) ws).m_header.mapId
      = some mrec := by
    rw [hhdr]; exact hrec
  have hid2 : other.m_header.mapId
      = (runFieldWrites (InitEmpty MAP_VERSION_MAGIC m0 h) ws).m_header.mapId := by
    rw [hhdr]; exact hid
  rw [save_load_general DATA_DIR GetMapRecord fs _ other mrec hwt hshape hr2.2.2 hrec2 hw hr hid2,
    save_load_general DATA_DIR GetMapRecord fs _ _ mrec hwt hshape hr2.2.2 hrec2 hw hr rfl]
  exact ⟨rfl, rfl, rfl, rfl⟩

theorem C4_witness :
    (LoadFromFile "data/" exampleGetMapRecord
        (SaveToFile "data/" exampleGetMapRecord exampleFileSystem
          (runFieldWrites (InitEmpty 77 Map.new ⟨1, 2, 2, 3, 4, 5, 0⟩) [⟨1, 0, 9, 8, 7⟩])).1
        { Map.new with m_header := ⟨1, 0, 0, 0, 0, 0, 0⟩, m_fields := [[⟨1, 1, 1⟩]] }).2.1.m_fields
      = (runFieldWrites (InitEmpty 77 Map.new ⟨1, 2, 2, 3, 4, 5, 0⟩) [⟨1, 0, 9, 8, 7⟩]).m_fields :=
  (C4_save_load_roundtrip "data/" exampleGetMapRecord exampleFileSystem 77 Map.new
    ⟨1, 2, 2, 3, 4, 5, 0⟩ [⟨1, 0, 9, 8, 7⟩]
    { Map.new with m_header := ⟨1, 0, 0, 0, 0, 0, 0⟩, m_fields := [[⟨1, 1, 1⟩]] }
    ⟨"first.map"⟩ (by decide) (by decide) (by decide) rfl rfl rfl rfl).2.2.1

theorem guidMapFind_nil (k : Nat) : guidMapFind [] k = none := rfl

theorem guidMapFind_cons (a b : Nat) (g : List (Nat × Nat)) (k : Nat) :
    guidMapFind ((a, b) :: g) k = if a = k then some b else guidMapFind g k := by
  unfold guidMapFind
  by_cases h : a = k
  · simp [List.find?_cons, h]
  · simp [List.find?_cons, h]

theorem guidMapFind_map (g : List (Nat × Nat)) (k v k2 : Nat) :
    guidMapFind (g.map (fun e => if e.1 == k then (k, v) else e)) k2
      = if k2 = k then (guidMapFind g k).map (fun _ => v) else guidMapFind g k2 := by
  induction g with
  | nil => simp [guidMapFind_nil]
  | cons e rest ih =>
    obtain ⟨a, b⟩ := e
    rw [List.map_cons]
    by_cases ha : a = k
    · subst ha
      simp only [beq_self_eq_true, if_true]
      rw [guidMapFind_cons, guidMapFind_cons, guidMapFind_cons]
      by_cases h2 : k2 = a
      · subst h2; simp
      · have h3 : ¬ a = k2 := fun h => h2 h.symm
        simp only [h3, h2, if_false] at ih ⊢
        exact ih
    · have hb : (a == k) = false := by simpa using ha
      simp only [hb, Bool.false_eq_true, if_false]
      rw [guidMapFind_cons, guidMapFind_cons, guidMapFind_cons, ih]
      by_cases h2 : k2 = k
      · subst h2
        simp [ha]
      · simp only [h2, if_false]

theorem guidMapFind_append_single (g : List (Nat × Nat)) (k v k2 : Nat) :
    guidMapFind (g ++ [(k, v)]) k2
      = match guidMapFind g k2 with
        | some o => some o
        | none => if k = k2 then some v else none := by
  induction g with
  | nil => simp [guidMapFind_cons, guidMapFind_nil]
  | cons e rest ih =>
    obtain ⟨a, b⟩ := e
    rw [List.cons_append, guidMapFind_cons, guidMapFind_cons, ih]
    by_cases h : a = k2
    · simp [h]
    · simp [h]

theorem guidMapFind_assign (g : List (Nat × Nat)) (k v k2 : Nat) :
    guidMapFind (guidMapAssign g k v) k2 = if k2 = k then some v else guidMapFind g k2 := by
  unfold guidMapAssign
  cases hf : guidMapFind g k with
  | some o =>
    simp only [Option.isSome_some, if_true]
    rw [guidMapFind_map, hf]
    simp
  | none =>
    simp only [Option.isSome_none, Bool.false_eq_true, if_false]
    rw [guidMapFind_append_single]
    by_cases h : k2 = k
    · subst h
      simp [hf]
    · have h3 : ¬ k = k2 := fun e => h e.symm
      cases guidMapFind g k2 <;> simp [h, h3]

theorem guidMapFind_erase (g : List (Nat × Nat)) (k k2 : Nat) :
    guidMapFind (guidMapErase g k) k2 = if k2 = k then none else guidMapFind g k2 := by
  unfold guidMapErase
  induction g with
  | nil => simp [guidMapFind_nil]
  | cons e rest ih =>
    obtain ⟨a, b⟩ := e
    by_cases ha : a = k
    · subst ha
      simp only [List.filter_cons, bne_self_eq_false, Bool.false_eq_true, if_false]
      rw [ih, guidMapFind_cons]
      by_cases h2 : k2 = a
      · simp [h2]
      · have h3 : ¬ a = k2 := fun e => h2 e.symm
        simp [h2, h3]
    · have hb : (a != k) = true := by simpa using ha
      simp only [List.filter_cons, hb, if_true]
      rw [guidMapFind_cons, guidMapFind_cons, ih]
      by_cases h2 : k2 = k
      · subst h2
        simp [ha]
      · simp [h2]

theorem guidMapFind_mem (g : List (Nat × Nat)) (k o : Nat) (h : guidMapFind g k = some o) :
    (k, o) ∈ g := by
  induction g with
  | nil => simp [guidMapFind_nil] at h
  | cons e rest ih =>
    obtain ⟨a, b⟩ := e
    rw [guidMapFind_cons] at h
    by_cases ha : a = k
    · simp only [ha, if_true, Option.some.injEq] at h
      subst ha; subst h
      exact List.mem_cons_self _ _
    · simp only [ha, if_false] at h
      exact List.mem_cons_of_mem _ (ih h)

theorem guidMapFind_isSome_of_mem (g : List (Nat × Nat)) (e : Nat × Nat) (h : e ∈ g) :
    (guidMapFind g e.1).isSome = true := by
  induction g with
  | nil => cases h
  | cons d rest ih =>
    obtain ⟨a, b⟩ := d
    rw [guidMapFind_cons]
    by_cases ha : a = e.1
    · simp [ha]
    · simp only [ha, if_false]
      rcases List.mem_cons.mp h with h1 | h1
      · exact absurd (by rw [h1]) ha
      · exact ih h1

theorem mem_objectSetInsert (s : List Nat) (obj p : Nat) :
    p ∈ objectSetInsert s obj ↔ p = obj ∨ p ∈ s := by
  unfold objectSetInsert
  by_cases h : s.contains obj = true
  · rw [if_pos h]
    constructor
    · intro hp; exact Or.inr hp
    · rintro (hp | hp)
      · rw [hp]; simpa using h
      · exact hp
  · rw [if_neg h]
    simp [or_comm]

theorem mem_objectSetErase (s : List Nat) (obj p : Nat) :
    p ∈ objectSetErase s obj ↔ p ∈ s ∧ p ≠ obj := by
  simp [objectSetErase]

theorem objectSetContains_iff (s : List Nat) (obj : Nat) :
    objectSetContains s obj = true ↔ obj ∈ s := by
  simp [objectSetContains]

theorem AddWorldObject_sound (G : Nat) (heap : Nat → WorldObject) (m : Map) (obj : Nat)
    (h : GuidIndexSound G heap m) : GuidIndexSound G heap (AddWorldObject G heap m obj) := by
  unfold AddWorldObject
  by_cases hc : objectSetContains m.m_objectSet obj = true
  · rw [if_pos hc]; exact h
  · rw [if_neg hc]
    intro g o hfind
    simp only at hfind ⊢
    rw [guidMapFind_assign] at hfind
    rw [mem_objectSetInsert]
    by_cases hg : g = GetGUID G (heap obj)
    · rw [if_pos hg] at hfind
      cases hfind
      exact ⟨Or.inl rfl, hg.symm⟩
    · rw [if_neg hg] at hfind
      exact ⟨Or.inr (h g o hfind).1, (h g o hfind).2⟩

theorem RemoveWorldObject_guidMap (G : Nat) (heap : Nat → WorldObject) (m : Map) (obj : Nat)
    (hc : objectSetContains m.m_objectSet obj = true) (g : Nat) :
    guidMapFind (RemoveWorldObject G heap m obj).m_objectGuidMap g
      = if g = GetGUID G (heap obj) then none else guidMapFind m.m_objectGuidMap g := by
  unfold RemoveWorldObject
  rw [if_pos hc]
  simp only
  cases hf : guidMapFind m.m_objectGuidMap (GetGUID G (heap obj)) with
  | some o => simp only; rw [guidMapFind_erase]
  | none =>
    simp only
    by_cases hg : g = GetGUID G (heap obj)
    · rw [if_pos hg, hg, hf]
    · rw [if_neg hg]

theorem RemoveWorldObject_set (G : Nat) (heap : Nat → WorldObject) (m : Map) (obj : Nat)
    (hc : objectSetContains m.m_objectSet obj = true) :
    (RemoveWorldObject G heap m obj).m_objectSet = objectSetErase m.m_objectSet obj := by
  unfold RemoveWorldObject
  rw [if_pos hc]

theorem RemoveWorldObject_absent (G : Nat) (heap : Nat → WorldObject) (m : Map) (obj : Nat)
    (hc : ¬ objectSetContains m.m_objectSet obj = true) :
    RemoveWorldObject G heap m obj = m := by
  unfold RemoveWorldObject
  rw [if_neg hc]

theorem RemoveWorldObject_sound (G : Nat) (heap : Nat → WorldObject) (m : Map) (obj : Nat)
    (h : GuidIndexSound G heap m) : GuidIndexSound G heap (RemoveWorldObject G heap m obj) := by
  by_cases hc : objectSetContains m.m_objectSet obj = true
  · intro g o hfind
    rw [RemoveWorldObject_guidMap G heap m obj hc] at hfind
    rw [RemoveWorldObject_set G heap m obj hc, mem_objectSetErase]
    by_cases hg : g = GetGUID G (heap obj)
    · rw [if_pos hg] at hfind; cases hfind
    · rw [if_neg hg] at hfind
      refine ⟨⟨(h g o hfind).1, ?_⟩, (h g o hfind).2⟩
      intro ho
      apply hg
      rw [← ho]
      exact (h g o hfind).2.symm
  · rw [RemoveWorldObject_absent G heap m obj hc]; exact h

theorem RemoveWorldObject_indexed (G : Nat) (heap : Nat → WorldObject) (m : Map) (obj : Nat)
    (h : SetIndexed G heap m) : SetIndexed G heap (RemoveWorldObject G heap m obj) := by
  by_cases hc : objectSetContains m.m_objectSet obj = true
  · intro o ho
    rw [RemoveWorldObject_set G heap m obj hc, mem_objectSetErase] at ho
    rw [RemoveWorldObject_guidMap G heap m obj hc]
    have hobj := h obj ((objectSetContains_iff _ _).mp hc)
    have ho2 := h o ho.1
    by_cases hg : GetGUID G (heap o) = GetGUID G (heap obj)
    · rw [hg, hobj] at ho2
      cases ho2
      exact absurd rfl ho.2
    · rw [if_neg hg]; exact ho2
  · rw [RemoveWorldObject_absent G heap m obj hc]; exact h

theorem AddWorldObject_indexed (G : Nat) (heap : Nat → WorldObject) (m : Map) (obj : Nat)
    (h : SetIndexed G heap m)
    (hinj : ∀ o ∈ m.m_objectSet, GetGUID G (heap o) = GetGUID G (heap obj) → o = obj) :
    SetIndexed G heap (AddWorldObject G heap m obj) := by
  unfold AddWorldObject
  by_cases hc : objectSetContains m.m_objectSet obj = true
  · rw [if_pos hc]; exact h
  · rw [if_neg hc]
    intro o ho
    simp only at ho ⊢
    rw [mem_objectSetInsert] at ho
    rw [guidMapFind_assign]
    rcases ho with ho | ho
    · rw [ho, if_pos rfl]
    · by_cases hg : GetGUID G (heap o) = GetGUID G (heap obj)
      · have := hinj o ho hg
        rw [this] at ho
        exact absurd ((objectSetContains_iff _ _).mpr ho) hc
      · rw [if_neg hg]; exact h o ho

theorem AddWorldObject_set_subset (G : Nat) (heap : Nat → WorldObject) (m : Map) (obj o : Nat)
    (ho : o ∈ (AddWorldObject G heap m obj).m_objectSet) : o ∈ m.m_objectSet ∨ o = obj := by
  unfold AddWorldObject at ho
  by_cases hc : objectSetContains m.m_objectSet obj = true
  · rw [if_pos hc] at ho; exact Or.inl ho
  · rw [if_neg hc] at ho
    simp only at ho
    rw [mem_objectSetInsert] at ho
    exact ho.symm

theorem RemoveWorldObject_set_subset (G : Nat) (heap : Nat → WorldObject) (m : Map) (obj o : Nat)
    (ho : o ∈ (RemoveWorldObject G heap m obj).m_objectSet) : o ∈ m.m_objectSet := by
  by_cases hc : objectSetContains m.m_objectSet obj = true
  · rw [RemoveWorldObject_set G heap m obj hc, mem_objectSetErase] at ho
    exact ho.1
  · rw [RemoveWorldObject_absent G heap m obj hc] at ho; exact ho

theorem RemoveWorldObjectByGuid_eq (G : Nat) (heap : Nat → WorldObject) (m : Map) (guid : Nat) :
    RemoveWorldObjectByGuid G heap m guid = m
      ∨ ∃ obj, RemoveWorldObjectByGuid G heap m guid = RemoveWorldObject G heap m obj := by
  unfold RemoveWorldObjectByGuid
  cases guidMapFind m.m_objectGuidMap guid with
  | none => exact Or.inl rfl
  | some obj => exact Or.inr ⟨obj, rfl⟩

theorem runObjectCall_sound (G : Nat) (heap : Nat → WorldObject) (m : Map) (c : ObjectCall)
    (h : GuidIndexSound G heap m) : GuidIndexSound G heap (runObjectCall G heap m c) := by
  cases c with
  | add obj => exact AddWorldObject_sound G heap m obj h
  | remove obj => exact RemoveWorldObject_sound G heap m obj h
  | removeGuid guid =>
    rcases RemoveWorldObjectByGuid_eq G heap m guid with h1 | ⟨obj, h1⟩
    · show GuidIndexSound G heap (RemoveWorldObjectByGuid G heap m guid)
      rw [h1]; exact h
    · show GuidIndexSound G heap (RemoveWorldObjectByGuid G heap m guid)
      rw [h1]; exact RemoveWorldObject_sound G heap m obj h

theorem runObjectCalls_sound (G : Nat) (heap : Nat → WorldObject) (calls : List ObjectCall)
    (m : Map) (h : GuidIndexSound G heap m) :
    GuidIndexSound G heap (runObjectCalls G heap m calls) := by
  induction calls generalizing m with
  | nil => exact h
  | cons c rest ih =>
    unfold runObjectCalls
    rw [List.foldl_cons]
    exact ih _ (runObjectCall_sound G heap m c h)

theorem runObjectCall_set_subset (G : Nat) (heap : Nat → WorldObject) (m : Map) (c : ObjectCall)
    (o : Nat) (ho : o ∈ (runObjectCall G heap m c).m_objectSet) :
    o ∈ m.m_objectSet ∨ c = ObjectCall.add o := by
  cases c with
  | add obj =>
    rcases AddWorldObject_set_subset G heap m obj o ho with h1 | h1
    · exact Or.inl h1
    · exact Or.inr (by rw [h1])
  | remove obj => exact Or.inl (RemoveWorldObject_set_subset G heap m obj o ho)
  | removeGuid guid =>
    rcases RemoveWorldObjectByGuid_eq G heap m guid with h1 | ⟨obj, h1⟩
    · left
      have ho2 : o ∈ (RemoveWorldObjectByGuid G heap m guid).m_objectSet := ho
      rw [h1] at ho2; exact ho2
    · left
      have ho2 : o ∈ (RemoveWorldObjectByGuid G heap m guid).m_objectSet := ho
      rw [h1] at ho2
      exact RemoveWorldObject_set_subset G heap m obj o ho2

theorem runObjectCall_indexed (G : Nat) (heap : Nat → WorldObject) (m : Map) (c : ObjectCall)
    (h : SetIndexed G heap m)
    (hinj : ∀ obj, c = ObjectCall.add obj → ∀ o ∈ m.m_objectSet,
      GetGUID G (heap o) = GetGUID G (heap obj) → o = obj) :
    SetIndexed G heap (runObjectCall G heap m c) := by
  cases c with
  | add obj => exact AddWorldObject_indexed G heap m obj h (hinj obj rfl)
  | remove obj => exact RemoveWorldObject_indexed G heap m obj h
  | removeGuid guid =>
    rcases RemoveWorldObjectByGuid_eq G heap m guid with h1 | ⟨obj, h1⟩
    · show SetIndexed G heap (RemoveWorldObjectByGuid G heap m guid)
      rw [h1]; exact h
    · show SetIndexed G heap (RemoveWorldObjectByGuid G heap m guid)
      rw [h1]; exact RemoveWorldObject_indexed G heap m obj h

theorem runObjectCalls_indexed (G : Nat) (heap : Nat → WorldObject) (calls : List ObjectCall)
    (m : Map) (h : SetIndexed G heap m)
    (hinj : ∀ a b, (a ∈ m.m_objectSet ∨ ObjectCall.add a ∈ calls) →
      (b ∈ m.m_objectSet ∨ ObjectCall.add b ∈ calls) →
      GetGUID G (heap a) = GetGUID G (heap b) → a = b) :
    SetIndexed G heap (runObjectCalls G heap m calls) := by
  induction calls generalizing m with
  | nil => exact h
  | cons c rest ih =>
    unfold runObjectCalls
    rw [List.foldl_cons]
    apply ih
    · apply runObjectCall_indexed G heap m c h
      intro obj hc o ho hg
      exact hinj o obj (Or.inl ho) (Or.inr (by rw [hc]; exact List.mem_cons_self _ _)) hg
    · intro a b ha hb hg
      apply hinj a b _ _ hg
      · rcases ha with ha | ha
        · rcases runObjectCall_set_subset G heap m c a ha with h1 | h1
          · exact Or.inl h1
          · exact Or.inr (by rw [h1]; exact List.mem_cons_self _ _)
        · exact Or.inr (List.mem_cons_of_mem _ ha)
      · rcases hb with hb | hb
        · rcases runObjectCall_set_subset G heap m c b hb with h1 | h1
          · exact Or.inl h1
          · exact Or.inr (by rw [h1]; exact List.mem_cons_self _ _)
        · exact Or.inr (List.mem_cons_of_mem _ hb)

theorem consistent_of_sound_indexed (G : Nat) (heap : Nat → WorldObject) (m : Map)
    (h1 : GuidIndexSound G heap m) (h2 : SetIndexed G heap m) : ObjectSetConsistent G heap m := by
  refine ⟨?_, ?_, ?_⟩
  · intro e _ o ho
    exact (h1 e.1 o ho).1
  · intro e he
    exact guidMapFind_isSome_of_mem _ e he
  · intro o ho
    rw [h2 o ho]
    rfl

/-- C5, as stated, fails: with two distinct objects (addresses 1 and 2) that carry the
same GUID, adding both and removing the second leaves object 1 in the identity set while
its GUID is no longer a key of the GUID index. -/
theorem C5_counterexample :
    ¬ ObjectSetConsistent 0 sharedGuidHeap
        (runObjectCalls 0 sharedGuidHeap Map.new
          [ObjectCall.add 1, ObjectCall.add 2, ObjectCall.remove 2]) := by
  decide

/-- C5, amended: starting from an empty map, after any sequence of `AddWorldObject`,
`RemoveWorldObject(obj)` and `RemoveWorldObject(guid)` calls in which distinct added
objects carry distinct GUIDs (each GUID fixed throughout), every GUID key of the GUID
index maps to an object of the identity set, and every object of the identity set has
its GUID present as a key of the GUID index. -/
theorem C5_object_set_consistency (OBJECT_FIELD_GUID : Nat) (heap : Nat → WorldObject)
    (calls : List ObjectCall)
    (hinj : ∀ a b, ObjectCall.add a ∈ calls → ObjectCall.add b ∈ calls →
      GetGUID OBJECT_FIELD_GUID (heap a) = GetGUID OBJECT_FIELD_GUID (heap b) → a = b) :
    ObjectSetConsistent OBJECT_FIELD_GUID heap
      (runObjectCalls OBJECT_FIELD_GUID heap Map.new calls) := by
  apply consistent_of_sound_indexed
  · apply runObjectCalls_sound
    intro g o ho
    cases ho
  · apply runObjectCalls_indexed
    · intro o ho
      cases ho
    · intro a b ha hb hg
      rcases ha with ha | ha
      · cases ha
      · rcases hb with hb | hb
        · cases hb
        · exact hinj a b ha hb hg

theorem C5_witness :
    ObjectSetConsistent 0 distinctGuidHeap
      (runObjectCalls 0 distinctGuidHeap Map.new
        [ObjectCall.add 1, ObjectCall.add 2, ObjectCall.remove 2]) :=
  C5_object_set_consistency 0 distinctGuidHeap
    [ObjectCall.add 1, ObjectCall.add 2, ObjectCall.remove 2]
    (by
      intro a b ha hb
      simp only [List.mem_cons, ObjectCall.add.injEq, List.mem_singleton, reduceCtorEq,
        or_false, List.mem_nil_iff] at ha hb
      rcases ha with ha | ha <;> rcases hb with hb | hb <;> subst ha <;> subst hb <;> decide)

/-- C6, as stated, fails: at the coordinate C = 0xFFFFFFFF no chunk size makes
`C < GetChunkStartX(GetChunkIndexX(C) + 1)` true, because the start of the next chunk is
computed in `uint32_t` and cannot exceed 0xFFFFFFFF (likewise on the Y axis). -/
theorem C6_counterexample :
    ¬ ∃ S : Nat, 4294967295 < GetChunkStartX S ((GetChunkIndexX S 4294967295 + 1) % 2 ^ 32)
        ∨ 4294967295 < GetChunkStartY S ((GetChunkIndexY S 4294967295 + 1) % 2 ^ 32) := by
  rintro ⟨S, h | h⟩
  · unfold GetChunkStartX at h
    omega
  · unfold GetChunkStartY at h
    omega

theorem chunk_bounds (S C : Nat) (hS : 0 < S) (hS32 : S < 2 ^ 32) (hC : C < 2 ^ 32) :
    (C / S * S) % 2 ^ 32 ≤ C
      ∧ (C < (((C / S + 1) % 2 ^ 32) * S) % 2 ^ 32 ↔ (C / S + 1) * S < 2 ^ 32) := by
  have h1 : C / S * S ≤ C := Nat.div_mul_le_self C S
  have h2 : C < (C / S + 1) * S := by
    have := Nat.lt_div_mul_add hS (a := C)
    rw [Nat.add_mul, Nat.one_mul]
    exact this
  have h3 : (C / S + 1) * S ≤ C + S := by
    rw [Nat.add_mul, Nat.one_mul]
    omega
  have h4 : C / S ≤ C := Nat.div_le_self C S
  refine ⟨?_, ?_⟩
  · rw [Nat.mod_eq_of_lt (by omega)]
    exact h1
  · constructor
    · intro h
      by_contra hn
      by_cases h5 : C / S + 1 < 2 ^ 32
      · rw [Nat.mod_eq_of_lt h5] at h
        omega
      · have h6 : C / S + 1 = 2 ^ 32 := by omega
        rw [h6] at h
        simp at h
    · intro h
      have h5 : C / S + 1 < 2 ^ 32 := by
        have : C / S + 1 ≤ (C / S + 1) * S := Nat.le_mul_of_pos_right _ hS
        omega
      rw [Nat.mod_eq_of_lt h5, Nat.mod_eq_of_lt h]
      exact h2

/-- C6, amended: for every 32-bit coordinate C and positive 32-bit chunk size S, in the
code's `uint32_t` arithmetic `GetChunkStartX(GetChunkIndexX(C)) <= C` always holds, and
`C < GetChunkStartX(GetChunkIndexX(C) + 1)` holds exactly when the start of the next
chunk, `(C / S + 1) * S`, still fits in 32 bits; likewise on the Y axis. -/
theorem C6_chunk_geometry (S C : Nat) (hS : 0 < S) (hS32 : S < 2 ^ 32) (hC : C < 2 ^ 32) :
    (GetChunkStartX S (GetChunkIndexX S C) ≤ C
      ∧ (C < GetChunkStartX S ((GetChunkIndexX S C + 1) % 2 ^ 32)
          ↔ (C / S + 1) * S < 2 ^ 32))
    ∧ (GetChunkStartY S (GetChunkIndexY S C) ≤ C
      ∧ (C < GetChunkStartY S ((GetChunkIndexY S C + 1) % 2 ^ 32)
          ↔ (C / S + 1) * S < 2 ^ 32)) := by
  unfold GetChunkStartX GetChunkIndexX GetChunkStartY GetChunkIndexY
  exact ⟨chunk_bounds S C hS hS32 hC, chunk_bounds S C hS hS32 hC⟩

theorem C6_witness :
    (GetChunkStartX 16 (GetChunkIndexX 16 37) ≤ 37
      ∧ (37 < GetChunkStartX 16 ((GetChunkIndexX 16 37 + 1) % 2 ^ 32)
          ↔ (37 / 16 + 1) * 16 < 2 ^ 32))
    ∧ (GetChunkStartY 16 (GetChunkIndexY 16 37) ≤ 37
      ∧ (37 < GetChunkStartY 16 ((GetChunkIndexY 16 37 + 1) % 2 ^ 32)
          ↔ (37 / 16 + 1) * 16 < 2 ^ 32)) :=
  C6_chunk_geometry 16 37 (by decide) (by decide) (by decide)

theorem sizeMinusOne_eq (n : Nat) (h0 : 0 < n) (h32 : n < 2 ^ 32) : sizeMinusOne n = n - 1 := by
  unfold sizeMinusOne
  omega

theorem firstColumn_length (fields : List (List MapField)) (sx sy : Nat)
    (hs : GridShape fields sx sy) (hx : 0 < sx) : (fields.getD 0 []).length = sy := by
  obtain ⟨h1, h2⟩ := hs
  rcases getD_mem_or_default fields 0 [] with h | h
  · exact h2 _ h
  · have hlen : 0 < fields.length := by omega
    apply h2
    rw [List.getD_eq_getElem?_getD, List.getElem?_eq_getElem hlen]
    exact List.getElem_mem hlen

theorem limits_of_shape (SX SY RX RY : Nat) (m : Map) (cellX cellY : Nat)
    (hx : 0 < m.m_header.sizeX) (hy : 0 < m.m_header.sizeY)
    (hx32 : m.m_header.sizeX < 2 ^ 32) (hy32 : m.m_header.sizeY < 2 ^ 32)
    (hs : GridShape m.m_fields m.m_header.sizeX m.m_header.sizeY) :
    GetCellSorroundingLimits SX SY RX RY m cellX cellY
      = ⟨if cellX > RX then cellX - RX else 0, if cellY > RY then cellY - RY else 0,
         if (cellX + RX) % 2 ^ 32 < GetChunkIndexX SX (m.m_header.sizeX - 1)
           then (cellX + RX) % 2 ^ 32 else GetChunkIndexX SX (m.m_header.sizeX - 1),
         if (cellY + RY) % 2 ^ 32 < GetChunkIndexY SY (m.m_header.sizeY - 1)
           then (cellY + RY) % 2 ^ 32 else GetChunkIndexY SY (m.m_header.sizeY - 1)⟩ := by
  unfold GetCellSorroundingLimits
  rw [firstColumn_length _ _ _ hs hx, hs.1, sizeMinusOne_eq _ hx hx32, sizeMinusOne_eq _ hy hy32]

/-- C7: for every map whose grid is non-empty (the header's `sizeX` columns of `sizeY`
cells, both positive 32-bit sizes) and every pair of chunk indices (cellX, cellY), also
beyond the grid, `GetCellSorroundingLimits` returns begin indices that are not below 0
and end indices that do not exceed the last valid chunk index of their axis,
`GetChunkIndexX(sizeX - 1)` and `GetChunkIndexY(sizeY - 1)`. -/
theorem C7_surrounding_limits_bounded (MAP_CHUNK_SIZE_X MAP_CHUNK_SIZE_Y : Nat)
    (MAP_SORROUNDING_CELLS_X MAP_SORROUNDING_CELLS_Y : Nat) (m : Map) (cellX cellY : Nat)
    (hx : 0 < m.m_header.sizeX) (hy : 0 < m.m_header.sizeY)
    (hx32 : m.m_header.sizeX < 2 ^ 32) (hy32 : m.m_header.sizeY < 2 ^ 32)
    (hs : GridShape m.m_fields m.m_header.sizeX m.m_header.sizeY) :
    0 ≤ (GetCellSorroundingLimits MAP_CHUNK_SIZE_X MAP_CHUNK_SIZE_Y MAP_SORROUNDING_CELLS_X
          MAP_SORROUNDING_CELLS_Y m cellX cellY).beginX
      ∧ 0 ≤ (GetCellSorroundingLimits MAP_CHUNK_SIZE_X MAP_CHUNK_SIZE_Y MAP_SORROUNDING_CELLS_X
          MAP_SORROUNDING_CELLS_Y m cellX cellY).beginY
      ∧ (GetCellSorroundingLimits MAP_CHUNK_SIZE_X MAP_CHUNK_SIZE_Y MAP_SORROUNDING_CELLS_X
          MAP_SORROUNDING_CELLS_Y m cellX cellY).endX
          ≤ GetChunkIndexX MAP_CHUNK_SIZE_X (m.m_header.sizeX - 1)
      ∧ (GetCellSorroundingLimits MAP_CHUNK_SIZE_X MAP_CHUNK_SIZE_Y MAP_SORROUNDING_CELLS_X
          MAP_SORROUNDING_CELLS_Y m cellX cellY).endY
          ≤ GetChunkIndexY MAP_CHUNK_SIZE_Y (m.m_header.sizeY - 1) := by
  rw [limits_of_shape _ _ _ _ m cellX cellY hx hy hx32 hy32 hs]
  refine ⟨Nat.zero_le _, Nat.zero_le _, ?_, ?_⟩
  · simp only
    split <;> omega
  · simp only
    split <;> omega

theorem exampleGridMap_shape :
    GridShape exampleGridMap.m_fields exampleGridMap.m_header.sizeX
      exampleGridMap.m_header.sizeY :=
  (InitEmpty_inv 1 Map.new ⟨1, 40, 20, 0, 0, 0, 0⟩ (by simp [MapHeader.WellTyped])).1

theorem C7_witness :
    0 ≤ (GetCellSorroundingLimits 16 16 2 2 exampleGridMap 4294967295 1).beginX
      ∧ 0 ≤ (GetCellSorroundingLimits 16 16 2 2 exampleGridMap 4294967295 1).beginY
      ∧ (GetCellSorroundingLimits 16 16 2 2 exampleGridMap 4294967295 1).endX
          ≤ GetChunkIndexX 16 (exampleGridMap.m_header.sizeX - 1)
      ∧ (GetCellSorroundingLimits 16 16 2 2 exampleGridMap 4294967295 1).endY
          ≤ GetChunkIndexY 16 (exampleGridMap.m_header.sizeY - 1) :=
  C7_surrounding_limits_bounded 16 16 2 2 exampleGridMap 4294967295 1
    (by decide) (by decide) (by decide) (by decide) exampleGridMap_shape

/-- C8: for every map with a non-empty grid and every chunk (cellX, cellY) of the grid
(cellX <= lastX = GetChunkIndexX(sizeX - 1), cellY <= lastY = GetChunkIndexY(sizeY - 1)),
with engine constants for which the last chunk index plus the radius fits in 32 bits,
`GetCellSorroundingLimits` returns the clamped radius rectangle:
beginX = max(0, cellX - MAP_SORROUNDING_CELLS_X),
endX = min(lastX, cellX + MAP_SORROUNDING_CELLS_X), the same on Y; every returned index
lies in [0, last] and beginX <= cellX <= endX, beginY <= cellY <= endY. -/
theorem C8_surrounding_limits_exact (MAP_CHUNK_SIZE_X MAP_CHUNK_SIZE_Y : Nat)
    (MAP_SORROUNDING_CELLS_X MAP_SORROUNDING_CELLS_Y : Nat) (m : Map) (cellX cellY : Nat)
    (hRX : 4294967294 / MAP_CHUNK_SIZE_X + MAP_SORROUNDING_CELLS_X < 2 ^ 32)
    (hRY : 4294967294 / MAP_CHUNK_SIZE_Y + MAP_SORROUNDING_CELLS_Y < 2 ^ 32)
    (hx : 0 < m.m_header.sizeX) (hy : 0 < m.m_header.sizeY)
    (hx32 : m.m_header.sizeX < 2 ^ 32) (hy32 : m.m_header.sizeY < 2 ^ 32)
    (hs : GridShape m.m_fields m.m_header.sizeX m.m_header.sizeY)
    (hcx : cellX ≤ GetChunkIndexX MAP_CHUNK_SIZE_X (m.m_header.sizeX - 1))
    (hcy : cellY ≤ GetChunkIndexY MAP_CHUNK_SIZE_Y (m.m_header.sizeY - 1)) :
    ((GetCellSorroundingLimits MAP_CHUNK_SIZE_X MAP_CHUNK_SIZE_Y MAP_SORROUNDING_CELLS_X
          MAP_SORROUNDING_CELLS_Y m cellX cellY).beginX : Int)
        = max 0 ((cellX : Int) - (MAP_SORROUNDING_CELLS_X : Int))
      ∧ ((GetCellSorroundingLimits MAP_CHUNK_SIZE_X MAP_CHUNK_SIZE_Y MAP_SORROUNDING_CELLS_X
          MAP_SORROUNDING_CELLS_Y m cellX cellY).beginY : Int)
        = max 0 ((cellY : Int) - (MAP_SORROUNDING_CELLS_Y : Int))
      ∧ (GetCellSorroundingLimits MAP_CHUNK_SIZE_X MAP_CHUNK_SIZE_Y MAP_SORROUNDING_CELLS_X
          MAP_SORROUNDING_CELLS_Y m cellX cellY).endX
        = min (GetChunkIndexX MAP_CHUNK_SIZE_X (m.m_header.sizeX - 1))
            (cellX + MAP_SORROUNDING_CELLS_X)
      ∧ (GetCellSorroundingLimits MAP_CHUNK_SIZE_X MAP_CHUNK_SIZE_Y MAP_SORROUNDING_CELLS_X
          MAP_SORROUNDING_CELLS_Y m cellX cellY).endY
        = min (GetChunkIndexY MAP_CHUNK_SIZE_Y (m.m_header.sizeY - 1))
            (cellY + MAP_SORROUNDING_CELLS_Y)
      ∧ (GetCellSorroundingLimits MAP_CHUNK_SIZE_X MAP_CHUNK_SIZE_Y MAP_SORROUNDING_CELLS_X
          MAP_SORROUNDING_CELLS_Y m cellX cellY).beginX ≤ cellX
      ∧ cellX ≤ (GetCellSorroundingLimits MAP_CHUNK_SIZE_X MAP_CHUNK_SIZE_Y
          MAP_SORROUNDING_CELLS_X MAP_SORROUNDING_CELLS_Y m cellX cellY).endX
      ∧ (GetCellSorroundingLimits MAP_CHUNK_SIZE_X MAP_CHUNK_SIZE_Y MAP_SORROUNDING_CELLS_X
          MAP_SORROUNDING_CELLS_Y m cellX cellY).endX
          ≤ GetChunkIndexX MAP_CHUNK_SIZE_X (m.m_header.sizeX - 1)
      ∧ (GetCellSorroundingLimits MAP_CHUNK_SIZE_X MAP_CHUNK_SIZE_Y MAP_SORROUNDING_CELLS_X
          MAP_SORROUNDING_CELLS_Y m cellX cellY).beginY ≤ cellY
      ∧ cellY ≤ (GetCellSorroundingLimits MAP_CHUNK_SIZE_X MAP_CHUNK_SIZE_Y
          MAP_SORROUNDING_CELLS_X MAP_SORROUNDING_CELLS_Y m cellX cellY).endY
      ∧ (GetCellSorroundingLimits MAP_CHUNK_SIZE_X MAP_CHUNK_SIZE_Y MAP_SORROUNDING_CELLS_X
          MAP_SORROUNDING_CELLS_Y m cellX cellY).endY
          ≤ GetChunkIndexY MAP_CHUNK_SIZE_Y (m.m_header.sizeY - 1) := by
  rw [limits_of_shape _ _ _ _ m cellX cellY hx hy hx32 hy32 hs]
  simp only
  have hlx : GetChunkIndexX MAP_CHUNK_SIZE_X (m.m_header.sizeX - 1)
      ≤ 4294967294 / MAP_CHUNK_SIZE_X := by
    unfold GetChunkIndexX
    exact Nat.div_le_div_right (by omega)
  have hly : GetChunkIndexY MAP_CHUNK_SIZE_Y (m.m_header.sizeY - 1)
      ≤ 4294967294 / MAP_CHUNK_SIZE_Y := by
    unfold GetChunkIndexY
    exact Nat.div_le_div_right (by omega)
  have hmx : (cellX + MAP_SORROUNDING_CELLS_X) % 2 ^ 32 = cellX + MAP_SORROUNDING_CELLS_X :=
    Nat.mod_eq_of_lt (by omega)
  have hmy : (cellY + MAP_SORROUNDING_CELLS_Y) % 2 ^ 32 = cellY + MAP_SORROUNDING_CELLS_Y :=
    Nat.mod_eq_of_lt (by omega)
  rw [hmx, hmy]
  generalize GetChunkIndexX MAP_CHUNK_SIZE_X (m.m_header.sizeX - 1) = lastX at *
  generalize GetChunkIndexY MAP_CHUNK_SIZE_Y (m.m_header.sizeY - 1) = lastY at *
  refine ⟨?_, ?_, ?_, ?_, ?_, ?_, ?_, ?_, ?_, ?_⟩ <;> split <;> omega

theorem C8_witness :
    (GetCellSorroundingLimits 16 16 2 2 exampleGridMap 1 0).endX
      = min (GetChunkIndexX 16 (exampleGridMap.m_header.sizeX - 1)) (1 + 2) :=
  (C8_surrounding_limits_exact 16 16 2 2 exampleGridMap 1 0 (by decide) (by decide)
    (by decide) (by decide) (by decide) (by decide) exampleGridMap_shape
    (by decide) (by decide)).2.2.1

theorem and_mask32 (v : Nat) : v &&& 0xFFFFFFFF = v % 2 ^ 32 :=
  Nat.and_pow_two_sub_one_eq_mod v 32

theorem high_word (v : Nat) (hv : v < 2 ^ 64) : (v >>> 32) &&& 0xFFFFFFFF = v >>> 32 := by
  rw [and_mask32, Nat.shiftRight_eq_div_pow]
  apply Nat.mod_eq_of_lt
  omega

theorem recombine_words (v : Nat) (hv : v < 2 ^ 64) :
    (v &&& 0xFFFFFFFF) ||| ((((v >>> 32) &&& 0xFFFFFFFF) <<< 32) % 2 ^ 64) = v := by
  rw [high_word v hv, and_mask32, Nat.shiftRight_eq_div_pow, Nat.shiftLeft_eq]
  have h1 : v / 2 ^ 32 * 2 ^ 32 < 2 ^ 64 := by omega
  rw [Nat.mod_eq_of_lt h1, Nat.or_comm, Nat.mul_comm,
    ← Nat.mul_add_lt_is_or (Nat.mod_lt v (by decide)) (v / 2 ^ 32)]
  omega

theorem SetUInt32Value_fields (o : WorldObject) (field value : Nat) :
    (SetUInt32Value o field value).m_updateFields = o.m_updateFields.set field value := by
  unfold SetUInt32Value
  by_cases h : o.m_updateFields.getD field 0 = value
  · rw [if_pos h]
    by_cases hf : field < o.m_updateFields.length
    · rw [← h, set_getD_self _ _ _ hf]
    · rw [List.set_eq_of_length_le (by omega)]
  · rw [if_neg h]

theorem SetUInt64Value_fields (o : WorldObject) (i v : Nat) (hi : i + 1 < 2 ^ 32) :
    (SetUInt64Value o i v).m_updateFields
      = (o.m_updateFields.set i (v &&& 0xFFFFFFFF)).set (i + 1) ((v >>> 32) &&& 0xFFFFFFFF) := by
  unfold SetUInt64Value
  simp only
  rw [SetUInt32Value_fields, SetUInt32Value_fields, Nat.mod_eq_of_lt hi]

theorem getD_set_set (l : List Nat) (i a b j : Nat) (hi : i + 1 < l.length) :
    ((l.set i a).set (i + 1) b).getD j 0
      = if j = i then a else if j = i + 1 then b else l.getD j 0 := by
  simp only [List.getD_eq_getElem?_getD, List.getElem?_set, List.length_set]
  by_cases h1 : j = i
  · subst h1
    have h2 : j < l.length := by omega
    simp [h2]
  · by_cases h2 : j = i + 1
    · subst h2
      simp [hi]
    · have h3 : ¬ i + 1 = j := fun e => h2 e.symm
      have h4 : ¬ i = j := fun e => h1 e.symm
      simp [h1, h2, h3, h4]

theorem SetUInt64Value_words (o : WorldObject) (i V : Nat)
    (hN : o.m_updateFields.length ≤ 2 ^ 32) (hi : i + 1 < o.m_updateFields.length)
    (hV : V < 2 ^ 64) :
    GetUInt32Value (SetUInt64Value o i V) i = V &&& 0xFFFFFFFF
      ∧ GetUInt32Value (SetUInt64Value o i V) (i + 1) = V >>> 32
      ∧ (∀ j, j ≠ i → j ≠ i + 1 →
          GetUInt32Value (SetUInt64Value o i V) j = GetUInt32Value o j)
      ∧ (SetUInt64Value o i V).m_updateFields.length = o.m_updateFields.length := by
  unfold GetUInt32Value
  rw [SetUInt64Value_fields o i V (by omega)]
  refine ⟨?_, ?_, ?_, ?_⟩
  · rw [getD_set_set _ _ _ _ _ hi, if_pos rfl]
  · rw [getD_set_set _ _ _ _ _ hi, if_neg (by omega), if_pos rfl, high_word V hV]
  · intro j h1 h2
    rw [getD_set_set _ _ _ _ _ hi, if_neg h1, if_neg h2]
  · simp

/-- C9: for every update-field store of N words (N within the 32-bit index range),
every index i with i + 1 < N and every 64-bit value V, after `SetUInt64Value(i, V)`
`GetUInt32Value(i)` returns `V & 0xFFFFFFFF`, `GetUInt32Value(i + 1)` returns `V >> 32`,
and every word at an index other than i and i + 1 is unchanged. -/
theorem C9_setUInt64_words (o : WorldObject) (i V : Nat)
    (hN : o.m_updateFields.length ≤ 2 ^ 32) (hi : i + 1 < o.m_updateFields.length)
    (hV : V < 2 ^ 64) :
    GetUInt32Value (SetUInt64Value o i V) i = V &&& 0xFFFFFFFF
      ∧ GetUInt32Value (SetUInt64Value o i V) (i + 1) = V >>> 32
      ∧ (∀ j, j ≠ i → j ≠ i + 1 →
          GetUInt32Value (SetUInt64Value o i V) j = GetUInt32Value o j)
      ∧ (SetUInt64Value o i V).m_updateFields.length = o.m_updateFields.length :=
  SetUInt64Value_words o i V hN hi hV

theorem C9_witness :
    GetUInt32Value (SetUInt64Value ⟨[1, 2, 3, 4], 0, 0, 0, 0⟩ 1 0xAABBCCDD11223344) 2
      = 0xAABBCCDD11223344 >>> 32 :=
  (C9_setUInt64_words ⟨[1, 2, 3, 4], 0, 0, 0, 0⟩ 1 0xAABBCCDD11223344
    (by decide) (by decide) (by decide)).2.1

theorem uint64_roundtrip (p : WorldObject) (k v : Nat) (h1 : p.m_updateFields.length ≤ 2 ^ 32)
    (h2 : k + 1 < p.m_updateFields.length) (h3 : v < 2 ^ 64) :
    GetUInt64Value (SetUInt64Value p k v) k = v := by
  have hk : (k + 1) % 2 ^ 32 = k + 1 := Nat.mod_eq_of_lt (by omega)
  unfold GetUInt64Value
  rw [SetUInt64Value_fields p k v (by omega), hk,
    getD_set_set _ _ _ _ _ h2, getD_set_set _ _ _ _ _ h2, if_pos rfl, if_neg (by omega),
    if_pos rfl]
  exact recombine_words v h3

/-- C10: for every store of N words (N within the 32-bit index range), every index i
with i + 1 < N and every 64-bit value V, `GetUInt64Value(i)` after `SetUInt64Value(i, V)`
returns V; consequently, for every object and every 64-bit guid, when the two GUID words
lie inside the `GAMEOBJECT_FIELDS_END`-word store, after
`Gameobject::InitializeObject(guid)` the store has `GAMEOBJECT_FIELDS_END` words,
`GetGUID()` returns guid and every word other than the two GUID words reads 0. -/
theorem C10_uint64_roundtrip_and_guid (o : WorldObject) (i V : Nat)
    (GAMEOBJECT_FIELDS_END OBJECT_FIELD_GUID : Nat) (fresh : WorldObject) (guid : Nat)
    (hN : o.m_updateFields.length ≤ 2 ^ 32) (hi : i + 1 < o.m_updateFields.length)
    (hV : V < 2 ^ 64)
    (hEnd : GAMEOBJECT_FIELDS_END ≤ 2 ^ 32)
    (hG : OBJECT_FIELD_GUID + 1 < GAMEOBJECT_FIELDS_END) (hguid : guid < 2 ^ 64) :
    GetUInt64Value (SetUInt64Value o i V) i = V
      ∧ (Gameobject.InitializeObject GAMEOBJECT_FIELDS_END OBJECT_FIELD_GUID
          fresh guid).1.m_updateFields.length = GAMEOBJECT_FIELDS_END
      ∧ GetGUID OBJECT_FIELD_GUID
          (Gameobject.InitializeObject GAMEOBJECT_FIELDS_END OBJECT_FIELD_GUID fresh guid).1
          = guid
      ∧ (∀ j, j ≠ OBJECT_FIELD_GUID → j ≠ OBJECT_FIELD_GUID + 1 →
          GetUInt32Value
            (Gameobject.InitializeObject GAMEOBJECT_FIELDS_END OBJECT_FIELD_GUID fresh guid).1 j
            = 0) := by
  have hlen : (Gameobject.CreateUpdateFields GAMEOBJECT_FIELDS_END fresh).m_updateFields.length
      = GAMEOBJECT_FIELDS_END := by
    simp [Gameobject.CreateUpdateFields, WorldObject.CreateUpdateFields]
  have hzero : ∀ j,
      GetUInt32Value (Gameobject.CreateUpdateFields GAMEOBJECT_FIELDS_END fresh) j = 0 := by
    intro j
    simp only [GetUInt32Value, Gameobject.CreateUpdateFields, WorldObject.CreateUpdateFields,
      List.getD_eq_getElem?_getD, List.getElem?_replicate]
    split <;> rfl
  have h9 := SetUInt64Value_words (Gameobject.CreateUpdateFields GAMEOBJECT_FIELDS_END fresh)
    OBJECT_FIELD_GUID guid (by rw [hlen]; exact hEnd) (by rw [hlen]; exact hG) hguid
  refine ⟨uint64_roundtrip o i V hN hi hV, ?_, ?_, ?_⟩
  · show (SetUInt64Value _ OBJECT_FIELD_GUID guid).m_updateFields.length = _
    rw [h9.2.2.2, hlen]
  · exact uint64_roundtrip _ _ _ (by rw [hlen]; exact hEnd) (by rw [hlen]; exact hG) hguid
  · intro j h1 h2
    show GetUInt32Value (SetUInt64Value _ OBJECT_FIELD_GUID guid) j = 0
    rw [h9.2.2.1 j h1 h2, hzero]

theorem C10_witness :
    GetGUID 0 (Gameobject.InitializeObject 6 0 ⟨[], 0, 0, 0, 0⟩ 0x1122334455667788).1
      = 0x1122334455667788 :=
  (C10_uint64_roundtrip_and_guid ⟨[1, 2, 3, 4], 0, 0, 0, 0⟩ 1 0xAABBCCDD11223344 6 0
    ⟨[], 0, 0, 0, 0⟩ 0x1122334455667788
    (by decide) (by decide) (by decide) (by decide) (by decide) (by decide)).2.2.1

theorem SetUInt32Value_same (p : WorldObject) (i v : Nat) (h : GetUInt32Value p i = v) :
    SetUInt32Value p i v = p := by
  unfold GetUInt32Value at h
  unfold SetUInt32Value
  rw [if_pos h]

/-- C12: a same-value write is a no-op: for every store and index i below its length,
`SetUInt32Value(i, GetUInt32Value(i))` leaves the object unchanged, and for every value
v applying `SetUInt32Value(i, v)` twice yields the same object as applying it once, after
which `GetUInt32Value(i)` is v and every other word is unchanged. -/
theorem C12_setUInt32_same_value (o : WorldObject) (i v : Nat)
    (hi : i < o.m_updateFields.length) :
    SetUInt32Value o i (GetUInt32Value o i) = o
      ∧ SetUInt32Value (SetUInt32Value o i v) i v = SetUInt32Value o i v
      ∧ GetUInt32Value (SetUInt32Value o i v) i = v
      ∧ (∀ j, j ≠ i → GetUInt32Value (SetUInt32Value o i v) j = GetUInt32Value o j) := by
  have hget : GetUInt32Value (SetUInt32Value o i v) i = v := by
    unfold GetUInt32Value
    rw [SetUInt32Value_fields, getD_set_same _ _ _ _ hi]
  refine ⟨?_, ?_, hget, ?_⟩
  · exact SetUInt32Value_same o i _ rfl
  · exact SetUInt32Value_same _ i v hget
  · intro j hj
    unfold GetUInt32Value
    rw [SetUInt32Value_fields]
    have hne : ¬ i = j := fun e => hj e.symm
    simp [List.getD_eq_getElem?_getD, List.getElem?_set, hne]

theorem C12_witness :
    SetUInt32Value (SetUInt32Value ⟨[1, 2, 3, 4], 0, 0, 0, 0⟩ 2 9) 2 9
      = SetUInt32Value ⟨[1, 2, 3, 4], 0, 0, 0, 0⟩ 2 9 :=
  (C12_setUInt32_same_value ⟨[1, 2, 3, 4], 0, 0, 0, 0⟩ 2 9 (by decide)).2.1

/-- C13: for every store, index i, byte value v and every lane offset k above 3,
`SetUByteValue(i, k, v)` and `SetByteValue(i, k, v)` leave the whole object, and so the
whole store, unchanged. -/
theorem C13_invalid_lane_offset (o : WorldObject) (i k v : Nat) (sv : Int)
    (hk : 3 < k) :
    SetUByteValue o i k v = o ∧ SetByteValue o i k sv = o := by
  unfold SetByteValue SetUByteValue
  rw [if_pos hk, if_pos hk]
  exact ⟨rfl, rfl⟩

theorem C13_witness :
    SetUByteValue ⟨[0x11223344, 7], 0, 0, 0, 0⟩ 0 4 0xAB = ⟨[0x11223344, 7], 0, 0, 0, 0⟩
      ∧ SetByteValue ⟨[0x11223344, 7], 0, 0, 0, 0⟩ 0 4 (-3) = ⟨[0x11223344, 7], 0, 0, 0, 0⟩ :=
  C13_invalid_lane_offset ⟨[0x11223344, 7], 0, 0, 0, 0⟩ 0 4 0xAB (-3) (by decide)

/-- C14: for every map state and object obj: if obj is already in the identity set,
`AddWorldObject(obj)` leaves the map (identity set and GUID index) unchanged; otherwise
obj is in the identity set afterwards, `GetWorldObject` of its GUID returns obj, and
every earlier member of the identity set is still a member. -/
theorem C14_addWorldObject (OBJECT_FIELD_GUID : Nat) (heap : Nat → WorldObject) (m : Map)
    (obj : Nat) :
    (obj ∈ m.m_objectSet → AddWorldObject OBJECT_FIELD_GUID heap m obj = m)
      ∧ (obj ∉ m.m_objectSet →
          obj ∈ (AddWorldObject OBJECT_FIELD_GUID heap m obj).m_objectSet
            ∧ GetWorldObject (AddWorldObject OBJECT_FIELD_GUID heap m obj)
                (GetGUID OBJECT_FIELD_GUID (heap obj)) = some obj
            ∧ ∀ p ∈ m.m_objectSet,
                p ∈ (AddWorldObject OBJECT_FIELD_GUID heap m obj).m_objectSet) := by
  constructor
  · intro h
    unfold AddWorldObject
    rw [if_pos ((objectSetContains_iff _ _).mpr h)]
  · intro h
    have hc : ¬ objectSetContains m.m_objectSet obj = true :=
      fun e => h ((objectSetContains_iff _ _).mp e)
    unfold AddWorldObject GetWorldObject
    rw [if_neg hc]
    simp only
    refine ⟨?_, ?_, ?_⟩
    · rw [mem_objectSetInsert]; exact Or.inl rfl
    · rw [guidMapFind_assign, if_pos rfl]
    · intro p hp
      rw [mem_objectSetInsert]; exact Or.inr hp

theorem C14_witness :
    GetWorldObject (AddWorldObject 0 distinctGuidHeap Map.new 3)
      (GetGUID 0 (distinctGuidHeap 3)) = some 3 :=
  ((C14_addWorldObject 0 distinctGuidHeap Map.new 3).2 (by decide)).2.1

/-- C15: `SetAnimId(a)` is ignored (the object, with its animation id, current frame and
frame timer, is unchanged and no redraw is requested) whenever the image field
`OBJECT_FIELD_IMAGEID` is 0, for every animation id a, and also whenever a equals the
current animation id; in particular an idle object without texture stays idle on
`SetAnimId(WALK)`. -/
theorem C15_setAnimId_ignored (ANIM_IDLE OBJECT_FIELD_IMAGEID : Nat)
    (_isMovementAnim : Nat → Bool)
    (GetImageAnimationRecord : Nat → Nat → Option ImageAnimationDatabaseRecord)
    (getMSTime : Nat) (o : WorldObject) (a : Nat)
    (h : GetUInt32Value o OBJECT_FIELD_IMAGEID = 0 ∨ a = o.m_animId) :
    SetAnimId ANIM_IDLE OBJECT_FIELD_IMAGEID _isMovementAnim GetImageAnimationRecord
      getMSTime o a = (o, 0) := by
  unfold SetAnimId
  by_cases hsame : o.m_animId = a
  · rw [if_pos hsame]
  · rw [if_neg hsame]
    rcases h with h | h
    · simp only [h, if_true]
    · exact absurd h.symm hsame

theorem C15_witness :
    SetAnimId 0 2 sampleIsMovementAnim sampleRecordsIdleKnown 2000 sampleUntexturedObject 1
      = (sampleUntexturedObject, 0) :=
  C15_setAnimId_ignored 0 2 sampleIsMovementAnim sampleRecordsIdleKnown 2000
    sampleUntexturedObject 1 (Or.inl (by decide))
theorem startFrame_eq (mov : Bool) (r : ImageAnimationDatabaseRecord)
    (hb : r.frameBegin + 1 < 2 ^ 32) :
    startFrame mov r
      = if mov = true ∧ r.frameBegin + 1 < r.frameEnd then r.frameBegin + 1 else r.frameBegin := by
  unfold startFrame
  rw [Nat.mod_eq_of_lt hb]
  cases mov
  · simp
  · by_cases h : r.frameBegin + 1 < r.frameEnd
    · have h2 : ¬ r.frameBegin + 1 ≥ r.frameEnd := by omega
      simp [h, h2]
    · have h2 : r.frameBegin + 1 ≥ r.frameEnd := by omega
      simp [h, h2]

theorem startFrame_wrapped (mov : Bool) (r : ImageAnimationDatabaseRecord) :
    startFrame mov r
      = if mov = true ∧ (r.frameBegin + 1) % 2 ^ 32 < r.frameEnd
          then (r.frameBegin + 1) % 2 ^ 32 else r.frameBegin := by
  unfold startFrame
  cases mov
  · simp
  · simp only [Bool.not_true, Bool.false_or, decide_eq_true_eq, true_and]
    split <;> split <;> omega

theorem SetAnimId_record (ANIM_IDLE OBJECT_FIELD_IMAGEID : Nat) (_isMovementAnim : Nat → Bool)
    (GetImageAnimationRecord : Nat → Nat → Option ImageAnimationDatabaseRecord)
    (getMSTime : Nat) (o : WorldObject) (a : Nat) (r : ImageAnimationDatabaseRecord)
    (htex : GetUInt32Value o OBJECT_FIELD_IMAGEID ≠ 0) (hne : o.m_animId ≠ a)
    (hrec : GetImageAnimationRecord (GetUInt32Value o OBJECT_FIELD_IMAGEID) a = some r) :
    SetAnimId ANIM_IDLE OBJECT_FIELD_IMAGEID _isMovementAnim GetImageAnimationRecord
      getMSTime o a
      = ({ o with m_animId := a, m_animFrame := startFrame (_isMovementAnim a) r,
                  m_animTimer := getMSTime }, 1) := by
  unfold SetAnimId
  rw [if_neg hne]
  simp only [htex, if_false, hrec]

/-- C16, as stated, fails in two ways. When the idle animation has a record of its own
(texture 5: idle frames 7 to 9, walking frames 3 to 6), `SetAnimId(ANIM_IDLE)` on a
walking object shows frame 7, the idle record's first frame, not the walking record's
first frame 3. When neither animation has a record, the frame of the walking object
stays 4 and is not set to 0. -/
theorem C16_counterexample :
    (SetAnimId 0 2 sampleIsMovementAnim sampleRecordsIdleKnown 2000
        sampleWalkingObject 0).1.m_animFrame
        ≠ idleFrameAsSpecified sampleRecordsIdleKnown sampleWalkingObject 2
      ∧ (SetAnimId 0 2 sampleIsMovementAnim sampleRecordsNone 2000
        sampleWalkingObject 0).1.m_animFrame
        ≠ idleFrameAsSpecified sampleRecordsNone sampleWalkingObject 2 := by
  decide

/-- C16, amended: for every object with a texture set whose current animation is a
movement animation M (the idle animation not being a movement animation),
`SetAnimId(ANIM_IDLE)` sets the animation id to IDLE, resets the frame timer to the
current time and requests one redraw; the displayed frame becomes the first frame of the
idle animation's own record when (texture, IDLE) has one, and otherwise the `frameBegin`
of M's record when a record for (texture, M) exists. -/
theorem C16_setAnimId_idle (ANIM_IDLE OBJECT_FIELD_IMAGEID : Nat)
    (_isMovementAnim : Nat → Bool)
    (GetImageAnimationRecord : Nat → Nat → Option ImageAnimationDatabaseRecord)
    (getMSTime : Nat) (o : WorldObject)
    (htex : GetUInt32Value o OBJECT_FIELD_IMAGEID ≠ 0)
    (hmov : _isMovementAnim o.m_animId = true)
    (hidle : _isMovementAnim ANIM_IDLE = false) :
    (SetAnimId ANIM_IDLE OBJECT_FIELD_IMAGEID _isMovementAnim GetImageAnimationRecord
        getMSTime o ANIM_IDLE).1.m_animId = ANIM_IDLE
      ∧ (SetAnimId ANIM_IDLE OBJECT_FIELD_IMAGEID _isMovementAnim GetImageAnimationRecord
        getMSTime o ANIM_IDLE).1.m_animTimer = getMSTime
      ∧ (SetAnimId ANIM_IDLE OBJECT_FIELD_IMAGEID _isMovementAnim GetImageAnimationRecord
        getMSTime o ANIM_IDLE).2 = 1
      ∧ (∀ ri, GetImageAnimationRecord (GetUInt32Value o OBJECT_FIELD_IMAGEID) ANIM_IDLE
            = some ri →
          (SetAnimId ANIM_IDLE OBJECT_FIELD_IMAGEID _isMovementAnim GetImageAnimationRecord
            getMSTime o ANIM_IDLE).1.m_animFrame = ri.frameBegin)
      ∧ (GetImageAnimationRecord (GetUInt32Value o OBJECT_FIELD_IMAGEID) ANIM_IDLE = none →
          ∀ r, GetImageAnimationRecord (GetUInt32Value o OBJECT_FIELD_IMAGEID) o.m_animId
              = some r →
            (SetAnimId ANIM_IDLE OBJECT_FIELD_IMAGEID _isMovementAnim GetImageAnimationRecord
              getMSTime o ANIM_IDLE).1.m_animFrame = r.frameBegin) := by
  have hne : o.m_animId ≠ ANIM_IDLE := by
    intro e
    rw [e, hidle] at hmov
    exact Bool.false_ne_true hmov
  cases hi : GetImageAnimationRecord (GetUInt32Value o OBJECT_FIELD_IMAGEID) ANIM_IDLE with
  | some ri =>
    rw [SetAnimId_record ANIM_IDLE OBJECT_FIELD_IMAGEID _isMovementAnim GetImageAnimationRecord
      getMSTime o ANIM_IDLE ri htex hne hi]
    refine ⟨rfl, rfl, rfl, ?_, ?_⟩
    · intro ri2 h2
      cases h2
      simp [startFrame, hidle]
    · intro h2
      cases h2
  | none =>
    unfold SetAnimId
    rw [if_neg hne]
    simp only [htex, if_false, hi, if_true, hmov]
    refine ⟨by trivial, by trivial, by trivial, ?_, ?_⟩
    · intro ri h2
      cases h2
    · intro _ r hr
      rw [hr]

theorem C16_witness :
    (SetAnimId 0 2 sampleIsMovementAnim sampleRecordsWalkOnly 2000
        sampleWalkingObject 0).1.m_animFrame = 3 :=
  (C16_setAnimId_idle 0 2 sampleIsMovementAnim sampleRecordsWalkOnly 2000 sampleWalkingObject
    (by decide) (by decide) (by decide)).2.2.2.2 (by decide) ⟨3, 6, 100⟩ (by decide)

/-- C17: for every object with a texture set and every animation id A other than the
current id (in particular every such A other than IDLE) for which an animation record
(frameBegin, frameEnd, frameDelay) exists: after `SetAnimId(A)` the animation id is A,
the frame timer is the current time, one redraw is requested, and the current frame is
frameBegin + 1 if A is a movement animation and frameBegin + 1 < frameEnd, and frameBegin
in every other case, the sum frameBegin + 1 being the `uint32_t` sum of the code (so
the plain sum whenever frameBegin is below 0xFFFFFFFF). -/
theorem C17_setAnimId_with_record (ANIM_IDLE OBJECT_FIELD_IMAGEID : Nat)
    (_isMovementAnim : Nat → Bool)
    (GetImageAnimationRecord : Nat → Nat → Option ImageAnimationDatabaseRecord)
    (getMSTime : Nat) (o : WorldObject) (A : Nat) (r : ImageAnimationDatabaseRecord)
    (htex : GetUInt32Value o OBJECT_FIELD_IMAGEID ≠ 0)
    (hne : A ≠ o.m_animId)
    (hrec : GetImageAnimationRecord (GetUInt32Value o OBJECT_FIELD_IMAGEID) A = some r) :
    (SetAnimId ANIM_IDLE OBJECT_FIELD_IMAGEID _isMovementAnim GetImageAnimationRecord
        getMSTime o A).1.m_animId = A
      ∧ (SetAnimId ANIM_IDLE OBJECT_FIELD_IMAGEID _isMovementAnim GetImageAnimationRecord
        getMSTime o A).1.m_animTimer = getMSTime
      ∧ (SetAnimId ANIM_IDLE OBJECT_FIELD_IMAGEID _isMovementAnim GetImageAnimationRecord
        getMSTime o A).2 = 1
      ∧ (SetAnimId ANIM_IDLE OBJECT_FIELD_IMAGEID _isMovementAnim GetImageAnimationRecord
        getMSTime o A).1.m_animFrame
          = (if _isMovementAnim A = true ∧ (r.frameBegin + 1) % 2 ^ 32 < r.frameEnd
              then (r.frameBegin + 1) % 2 ^ 32 else r.frameBegin)
      ∧ (r.frameBegin + 1 < 2 ^ 32 →
          (SetAnimId ANIM_IDLE OBJECT_FIELD_IMAGEID _isMovementAnim GetImageAnimationRecord
            getMSTime o A).1.m_animFrame
            = if _isMovementAnim A = true ∧ r.frameBegin + 1 < r.frameEnd
                then r.frameBegin + 1 else r.frameBegin) := by
  rw [SetAnimId_record ANIM_IDLE OBJECT_FIELD_IMAGEID _isMovementAnim GetImageAnimationRecord
    getMSTime o A r htex (fun e => hne e.symm) hrec]
  exact ⟨rfl, rfl, rfl, startFrame_wrapped _ r, fun hb => startFrame_eq _ r hb⟩

theorem C17_witness :
    (SetAnimId 0 2 sampleIsMovementAnim sampleRecordsWalkOnly 2000
        { sampleWalkingObject with m_animId := 0, m_animFrame := 0 } 1).1.m_animFrame
      = (if sampleIsMovementAnim 1 = true ∧ (3 + 1) % 2 ^ 32 < 6 then (3 + 1) % 2 ^ 32 else 3) :=
  (C17_setAnimId_with_record 0 2 sampleIsMovementAnim sampleRecordsWalkOnly 2000
    { sampleWalkingObject with m_animId := 0, m_animFrame := 0 } 1 ⟨3, 6, 100⟩
    (by decide) (by decide) (by decide)).2.2.2.1

theorem Update_unchanged (OBJECT_FIELD_IMAGEID : Nat) (_isMovementAnim : Nat → Bool)
    (GetImageAnimationRecord : Nat → Nat → Option ImageAnimationDatabaseRecord)
    (getMSTimeDiff : Nat → Nat → Nat) (nowTest nowSet : Nat) (o : WorldObject)
    (h : GetUInt32Value o OBJECT_FIELD_IMAGEID = 0
      ∨ GetImageAnimationRecord (GetUInt32Value o OBJECT_FIELD_IMAGEID) o.m_animId = none
      ∨ ∃ r, GetImageAnimationRecord (GetUInt32Value o OBJECT_FIELD_IMAGEID) o.m_animId
            = some r ∧ ¬ getMSTimeDiff o.m_animTimer nowTest > r.frameDelay) :
    WorldObject.Update OBJECT_FIELD_IMAGEID _isMovementAnim GetImageAnimationRecord
      getMSTimeDiff nowTest nowSet o = (o, 0) := by
  unfold WorldObject.Update
  simp only
  by_cases htex : GetUInt32Value o OBJECT_FIELD_IMAGEID = 0
  · rw [if_pos htex]
  · rw [if_neg htex]
    rcases h with h | h | ⟨r, hr, hd⟩
    · exact absurd h htex
    · rw [h]
    · rw [hr]
      simp only
      rw [if_neg hd]

theorem Update_step (OBJECT_FIELD_IMAGEID : Nat) (_isMovementAnim : Nat → Bool)
    (GetImageAnimationRecord : Nat → Nat → Option ImageAnimationDatabaseRecord)
    (getMSTimeDiff : Nat → Nat → Nat) (nowTest nowSet : Nat) (o : WorldObject)
    (r : ImageAnimationDatabaseRecord)
    (htex : GetUInt32Value o OBJECT_FIELD_IMAGEID ≠ 0)
    (hrec : GetImageAnimationRecord (GetUInt32Value o OBJECT_FIELD_IMAGEID) o.m_animId = some r)
    (hd : getMSTimeDiff o.m_animTimer nowTest > r.frameDelay) :
    WorldObject.Update OBJECT_FIELD_IMAGEID _isMovementAnim GetImageAnimationRecord
      getMSTimeDiff nowTest nowSet o
      = ({ o with m_animTimer := nowSet,
                  m_animFrame :=
                    if (o.m_animFrame + 1) % 2 ^ 32 ≤ r.frameEnd then (o.m_animFrame + 1) % 2 ^ 32
                    else if _isMovementAnim o.m_animId = true
                        ∧ (r.frameBegin + 1) % 2 ^ 32 < r.frameEnd
                      then (r.frameBegin + 1) % 2 ^ 32 else r.frameBegin }, 1) := by
  unfold WorldObject.Update
  simp only
  rw [if_neg htex, hrec]
  simp only
  rw [if_pos hd]
  by_cases hle : (o.m_animFrame + 1) % 2 ^ 32 ≤ r.frameEnd
  · have hgt : ¬ (o.m_animFrame + 1) % 2 ^ 32 > r.frameEnd := by omega
    rw [if_neg hgt, if_pos hle]
  · have hgt : (o.m_animFrame + 1) % 2 ^ 32 > r.frameEnd := by omega
    rw [if_pos hgt, if_neg hle, startFrame_wrapped]

/-- C18, as stated, fails: a walking object at frame f = 0xFFFFFFFF whose record runs
from frame 3 to frame 0xFFFFFFFF has frameBegin <= f <= frameEnd; when its frame delay
has elapsed, `Update` increments the `uint32_t` frame to 0, finds 0 > frameEnd false
and leaves frame 0, which is below frameBegin: the frame has left
[frameBegin, frameEnd]. -/
theorem C18_counterexample :
    GetUInt32Value sampleLastFrameObject 2 ≠ 0
      ∧ sampleRecordsLastFrame (GetUInt32Value sampleLastFrameObject 2)
          sampleLastFrameObject.m_animId = some ⟨3, 0xFFFFFFFF, 100⟩
      ∧ sampleTimeDiff sampleLastFrameObject.m_animTimer 2000 > 100
      ∧ 3 ≤ sampleLastFrameObject.m_animFrame
      ∧ sampleLastFrameObject.m_animFrame ≤ 0xFFFFFFFF
      ∧ ¬ (3 ≤ (WorldObject.Update 2 sampleIsMovementAnim sampleRecordsLastFrame sampleTimeDiff
              2000 2001 sampleLastFrameObject).1.m_animFrame
            ∧ (WorldObject.Update 2 sampleIsMovementAnim sampleRecordsLastFrame sampleTimeDiff
              2000 2001 sampleLastFrameObject).1.m_animFrame ≤ 0xFFFFFFFF) := by
  decide

/-- C18, amended: `WorldObject::Update` is a time-driven step on (animation id, frame f,
timer t), every sum being the `uint32_t` sum of the code. If the texture is set, a record
(frameBegin, frameEnd, frameDelay) exists for the current animation and the elapsed time
since t exceeds frameDelay, then the timer becomes the current time, the animation id is
kept, one redraw is requested and the frame becomes f + 1 when f + 1 <= frameEnd, and
otherwise frameBegin + 1 if the animation is a movement animation with
frameBegin + 1 < frameEnd and frameBegin in every other case. If one of the three
conditions fails, the object (animation id, frame and timer) is unchanged and no redraw
is requested. Consequently, when frameBegin <= f <= frameEnd before the step and f + 1
does not wrap (f is below 0xFFFFFFFF) or frameBegin is 0, the frame is within
[frameBegin, frameEnd] after it. -/
theorem C18_update_step (OBJECT_FIELD_IMAGEID : Nat) (_isMovementAnim : Nat → Bool)
    (GetImageAnimationRecord : Nat → Nat → Option ImageAnimationDatabaseRecord)
    (getMSTimeDiff : Nat → Nat → Nat) (nowTest nowSet : Nat) (o : WorldObject) :
    (∀ r, GetUInt32Value o OBJECT_FIELD_IMAGEID ≠ 0 →
        GetImageAnimationRecord (GetUInt32Value o OBJECT_FIELD_IMAGEID) o.m_animId = some r →
        getMSTimeDiff o.m_animTimer nowTest > r.frameDelay →
        (WorldObject.Update OBJECT_FIELD_IMAGEID _isMovementAnim GetImageAnimationRecord
            getMSTimeDiff nowTest nowSet o).1.m_animTimer = nowSet
          ∧ (WorldObject.Update OBJECT_FIELD_IMAGEID _isMovementAnim GetImageAnimationRecord
            getMSTimeDiff nowTest nowSet o).1.m_animId = o.m_animId
          ∧ (WorldObject.Update OBJECT_FIELD_IMAGEID _isMovementAnim GetImageAnimationRecord
            getMSTimeDiff nowTest nowSet o).1.m_animFrame
              = (if (o.m_animFrame + 1) % 2 ^ 32 ≤ r.frameEnd then (o.m_animFrame + 1) % 2 ^ 32
                 else if _isMovementAnim o.m_animId = true
                     ∧ (r.frameBegin + 1) % 2 ^ 32 < r.frameEnd
                   then (r.frameBegin + 1) % 2 ^ 32 else r.frameBegin)
          ∧ (WorldObject.Update OBJECT_FIELD_IMAGEID _isMovementAnim GetImageAnimationRecord
            getMSTimeDiff nowTest nowSet o).2 = 1)
      ∧ ((GetUInt32Value o OBJECT_FIELD_IMAGEID = 0
          ∨ GetImageAnimationRecord (GetUInt32Value o OBJECT_FIELD_IMAGEID) o.m_animId = none
          ∨ ∃ r, GetImageAnimationRecord (GetUInt32Value o OBJECT_FIELD_IMAGEID) o.m_animId
                = some r ∧ ¬ getMSTimeDiff o.m_animTimer nowTest > r.frameDelay) →
        WorldObject.Update OBJECT_FIELD_IMAGEID _isMovementAnim GetImageAnimationRecord
          getMSTimeDiff nowTest nowSet o = (o, 0))
      ∧ (∀ r, GetImageAnimationRecord (GetUInt32Value o OBJECT_FIELD_IMAGEID) o.m_animId
            = some r →
          r.frameBegin ≤ o.m_animFrame → o.m_animFrame ≤ r.frameEnd →
          (o.m_animFrame + 1 < 2 ^ 32 ∨ r.frameBegin = 0) →
          r.frameBegin ≤ (WorldObject.Update OBJECT_FIELD_IMAGEID _isMovementAnim
              GetImageAnimationRecord getMSTimeDiff nowTest nowSet o).1.m_animFrame
            ∧ (WorldObject.Update OBJECT_FIELD_IMAGEID _isMovementAnim
              GetImageAnimationRecord getMSTimeDiff nowTest nowSet o).1.m_animFrame
                ≤ r.frameEnd) := by
  refine ⟨?_, ?_, ?_⟩
  · intro r htex hrec hd
    rw [Update_step OBJECT_FIELD_IMAGEID _isMovementAnim GetImageAnimationRecord getMSTimeDiff
      nowTest nowSet o r htex hrec hd]
    exact ⟨rfl, rfl, rfl, rfl⟩
  · exact Update_unchanged OBJECT_FIELD_IMAGEID _isMovementAnim GetImageAnimationRecord
      getMSTimeDiff nowTest nowSet o
  · intro r hrec h1 h2 h3
    by_cases hc : GetUInt32Value o OBJECT_FIELD_IMAGEID ≠ 0
        ∧ getMSTimeDiff o.m_animTimer nowTest > r.frameDelay
    · rw [Update_step OBJECT_FIELD_IMAGEID _isMovementAnim GetImageAnimationRecord getMSTimeDiff
        nowTest nowSet o r hc.1 hrec hc.2]
      simp only
      split
      · omega
      · split <;> omega
    · rw [Update_unchanged OBJECT_FIELD_IMAGEID _isMovementAnim GetImageAnimationRecord
        getMSTimeDiff nowTest nowSet o]
      · exact ⟨h1, h2⟩
      · by_cases htex : GetUInt32Value o OBJECT_FIELD_IMAGEID = 0
        · exact Or.inl htex
        · exact Or.inr (Or.inr ⟨r, hrec, fun hd => hc ⟨htex, hd⟩⟩)

theorem C18_witness :
    3 ≤ (WorldObject.Update 2 sampleIsMovementAnim sampleRecordsWalkOnly sampleTimeDiff
          2000 2001 { sampleWalkingObject with m_animFrame := 6 }).1.m_animFrame
      ∧ (WorldObject.Update 2 sampleIsMovementAnim sampleRecordsWalkOnly sampleTimeDiff
          2000 2001 { sampleWalkingObject with m_animFrame := 6 }).1.m_animFrame ≤ 6 :=
  (C18_update_step 2 sampleIsMovementAnim sampleRecordsWalkOnly sampleTimeDiff 2000 2001
    { sampleWalkingObject with m_animFrame := 6 }).2.2 ⟨3, 6, 100⟩ (by decide) (by decide)
    (by decide) (Or.inl (by decide))

theorem testBit_byte_of_lt (v t : Nat) (hv : v < 2 ^ 8) (ht : 8 ≤ t) : v.testBit t = false := by
  apply Nat.testBit_lt_two_pow
  calc v < 2 ^ 8 := hv
    _ ≤ 2 ^ t := Nat.pow_le_pow_right (by decide) ht

theorem testBit_complement32_lane (k n : Nat) :
    (complement32 (0xFF <<< (k * 8))).testBit n
      = (decide (n < 32) && !(decide (k * 8 ≤ n) && decide (n - k * 8 < 8))) := by
  have h1 : (0xFFFFFFFF : Nat) = 2 ^ 32 - 1 := by norm_num
  have h2 : (0xFF : Nat) = 2 ^ 8 - 1 := by norm_num
  unfold complement32
  rw [Nat.testBit_xor, h1, Nat.testBit_two_pow_sub_one, Nat.testBit_mod_two_pow,
    Nat.testBit_shiftLeft, h2, Nat.testBit_two_pow_sub_one]
  by_cases hn : n < 32 <;> simp [hn]

theorem lane_of_written_word (w k v j : Nat) (hk : k ≤ 3) (hj : j ≤ 3) (hv : v < 2 ^ 8) :
    (((w &&& complement32 (0xFF <<< (k * 8))) ||| ((v <<< (k * 8)) % 2 ^ 32)) >>> (j * 8)) % 2 ^ 8
      = if j = k then v else (w >>> (j * 8)) % 2 ^ 8 := by
  apply Nat.eq_of_testBit_eq
  intro t
  rw [Nat.testBit_mod_two_pow, Nat.testBit_shiftRight, Nat.testBit_or, Nat.testBit_and,
    testBit_complement32_lane, Nat.testBit_mod_two_pow, Nat.testBit_shiftLeft]
  by_cases ht : t < 8
  · have h32 : j * 8 + t < 32 := by omega
    by_cases hjk : j = k
    · subst hjk
      have e1 : j * 8 + t - j * 8 = t := by omega
      have e2 : j * 8 ≤ j * 8 + t := by omega
      simp [ht, h32, e1]
    · rw [if_neg hjk, Nat.testBit_mod_two_pow, Nat.testBit_shiftRight]
      by_cases hlt : k * 8 ≤ j * 8 + t
      · have e3 : ¬ j * 8 + t - k * 8 < 8 := by omega
        have e4 : 8 ≤ j * 8 + t - k * 8 := by omega
        simp [ht, h32, hlt, e3, testBit_byte_of_lt v _ hv e4]
      · simp [ht, h32, hlt]
  · have ht8 : 8 ≤ t := by omega
    by_cases hjk : j = k
    · rw [if_pos hjk, testBit_byte_of_lt v t hv ht8]
      simp [ht]
    · rw [if_neg hjk, Nat.testBit_mod_two_pow]
      simp [ht]
theorem word_eq_sum_of_lanes (x : Nat) (hx : x < 2 ^ 32) :
    x = byteLane x 0 + byteLane x 1 * 2 ^ 8 + byteLane x 2 * 2 ^ 16 + byteLane x 3 * 2 ^ 24 := by
  unfold byteLane
  simp only [Nat.shiftRight_eq_div_pow]
  norm_num
  omega

/-- The word `SetUByteValue` leaves at `field`: the old word on the early return, the
masked and merged word otherwise. -/
theorem SetUByteValue_word (o : WorldObject) (i k v : Nat) (hi : i < o.m_updateFields.length)
    (hk : k ≤ 3) :
    GetUInt32Value (SetUByteValue o i k v) i
      = if o.m_updateFields.getD i 0 >>> (k * 8) = v then o.m_updateFields.getD i 0
        else (o.m_updateFields.getD i 0 &&& complement32 (0xFF <<< (k * 8)))
          ||| ((v <<< (k * 8)) % 2 ^ 32) := by
  unfold SetUByteValue byteUnchangedGuard GetUInt32Value
  rw [if_neg (by omega)]
  by_cases hg : o.m_updateFields.getD i 0 >>> (k * 8) = v
  · simp only [hg, decide_True, if_true]
  · simp only [hg, decide_False, Bool.false_eq_true, if_false]
    rw [getD_set_same _ _ _ _ hi]

theorem SetUByteValue_other (o : WorldObject) (i k v n : Nat) (hn : n ≠ i) :
    GetUInt32Value (SetUByteValue o i k v) n = GetUInt32Value o n := by
  unfold SetUByteValue GetUInt32Value
  have hne : ¬ i = n := fun e => hn e.symm
  split
  · rfl
  · split
    · rfl
    · simp [List.getD_eq_getElem?_getD, List.getElem?_set, hne]

theorem SetUByteValue_lanes (o : WorldObject) (i k v : Nat) (hi : i < o.m_updateFields.length)
    (hk : k ≤ 3) (hv : v < 2 ^ 8) (j : Nat) (hj : j ≤ 3) :
    byteLane (GetUInt32Value (SetUByteValue o i k v) i) j
      = if j = k then v else byteLane (GetUInt32Value o i) j := by
  rw [SetUByteValue_word o i k v hi hk]
  unfold byteLane GetUInt32Value
  by_cases hg : o.m_updateFields.getD i 0 >>> (k * 8) = v
  · rw [if_pos hg]
    by_cases hjk : j = k
    · rw [if_pos hjk, hjk, hg]
      exact Nat.mod_eq_of_lt hv
    · rw [if_neg hjk]
  · rw [if_neg hg]
    exact lane_of_written_word _ k v j hk hj hv

theorem SetUByteValue_word_lt (o : WorldObject) (i k v : Nat)
    (hi : i < o.m_updateFields.length) (hk : k ≤ 3) (hw : GetUInt32Value o i < 2 ^ 32) :
    GetUInt32Value (SetUByteValue o i k v) i < 2 ^ 32 := by
  rw [SetUByteValue_word o i k v hi hk]
  unfold GetUInt32Value at hw
  split
  · exact hw
  · apply Nat.or_lt_two_pow
    · exact Nat.lt_of_le_of_lt Nat.and_le_left hw
    · exact Nat.mod_lt _ (by decide)

/-- C11: for every store, index i below its length, lane offset k in 0..3, byte value v
and prior 32-bit word w at index i: after `SetUByteValue(i, k, v)` the word at i equals
w with byte lane k replaced by v, so `GetUByteValue(i, k)` returns v and
`GetUByteValue(i, j)` returns the same byte as before for each of the other three lanes
j; the words at other indices are unchanged. -/
theorem C11_setUByte_replaces_lane (o : WorldObject) (i k v : Nat)
    (hi : i < o.m_updateFields.length) (hk : k ≤ 3) (hv : v < 2 ^ 8)
    (hw : GetUInt32Value o i < 2 ^ 32) :
    GetUInt32Value (SetUByteValue o i k v) i = wordWithLane (GetUInt32Value o i) k v
      ∧ GetUByteValue (SetUByteValue o i k v) i k = v
      ∧ (∀ j, j ≤ 3 → j ≠ k →
          GetUByteValue (SetUByteValue o i k v) i j = GetUByteValue o i j)
      ∧ (∀ n, n ≠ i → GetUInt32Value (SetUByteValue o i k v) n = GetUInt32Value o n) := by
  have hl := SetUByteValue_lanes o i k v hi hk hv
  refine ⟨?_, ?_, ?_, ?_⟩
  · have hsum := word_eq_sum_of_lanes _ (SetUByteValue_word_lt o i k v hi hk hw)
    rw [hl 0 (by omega), hl 1 (by omega), hl 2 (by omega), hl 3 (by omega)] at hsum
    exact hsum
  · have := hl k hk
    rw [if_pos rfl] at this
    exact this
  · intro j hj hjk
    have := hl j hj
    rw [if_neg hjk] at this
    exact this
  · intro n hn
    exact SetUByteValue_other o i k v n hn

theorem C11_witness :
    GetUInt32Value (SetUByteValue ⟨[7, 0x11223344], 0, 0, 0, 0⟩ 1 2 0xAB) 1
      = wordWithLane (GetUInt32Value ⟨[7, 0x11223344], 0, 0, 0, 0⟩ 1) 2 0xAB :=
  (C11_setUByte_replaces_lane ⟨[7, 0x11223344], 0, 0, 0, 0⟩ 1 2 0xAB
    (by decide) (by decide) (by decide) (by decide)).1

/-- C19: the unchanged-value guard of `SetUByteValue` does not hold exactly when the
lane already holds the value. For the word 0x00000105 at index 0, lane 0 already holds
the byte 0x05, yet the guard `m_updateFields[0] >> 0 == 0x05` is false, because it
compares the whole shifted word 0x105 and not its low byte; the write path is taken
(and stores the same word again). -/
theorem C19_guard_misses_equal_lane :
    GetUByteValue ⟨[0x105], 0, 0, 0, 0⟩ 0 0 = 5
      ∧ byteUnchangedGuard ⟨[0x105], 0, 0, 0, 0⟩ 0 0 5 = false
      ∧ SetUByteValue ⟨[0x105], 0, 0, 0, 0⟩ 0 0 5 = ⟨[0x105], 0, 0, 0, 0⟩ := by
  decide
theorem mem_guidMapAssign (g : List (Nat × Nat)) (k v : Nat) (e : Nat × Nat)
    (he : e ∈ guidMapAssign g k v) : e = (k, v) ∨ e ∈ g := by
  unfold guidMapAssign at he
  split at he
  · rcases List.mem_map.mp he with ⟨d, hd, hde⟩
    by_cases hk : (d.1 == k) = true
    · rw [if_pos hk] at hde
      exact Or.inl hde.symm
    · rw [if_neg hk] at hde
      rw [← hde]
      exact Or.inr hd
  · rcases List.mem_append.mp he with h | h
    · exact Or.inr h
    · exact Or.inl (List.mem_singleton.mp h)

theorem mem_guidMapErase (g : List (Nat × Nat)) (k : Nat) (e : Nat × Nat) :
    e ∈ guidMapErase g k ↔ e ∈ g ∧ e.1 ≠ k := by
  simp [guidMapErase]

theorem AddWorldObject_entries (G : Nat) (heap : Nat → WorldObject) (m : Map) (obj : Nat)
    (h : GuidEntriesSound G heap m) : GuidEntriesSound G heap (AddWorldObject G heap m obj) := by
  unfold AddWorldObject
  by_cases hc : objectSetContains m.m_objectSet obj = true
  · rw [if_pos hc]; exact h
  · rw [if_neg hc]
    intro e he
    simp only at he ⊢
    rw [mem_objectSetInsert]
    rcases mem_guidMapAssign _ _ _ e he with h1 | h1
    · rw [h1]
      exact ⟨Or.inl rfl, rfl⟩
    · exact ⟨Or.inr (h e h1).1, (h e h1).2⟩

theorem RemoveWorldObject_entries (G : Nat) (heap : Nat → WorldObject) (m : Map) (obj : Nat)
    (h : GuidEntriesSound G heap m) :
    GuidEntriesSound G heap (RemoveWorldObject G heap m obj) := by
  by_cases hc : objectSetContains m.m_objectSet obj = true
  · intro e he
    rw [RemoveWorldObject_set G heap m obj hc, mem_objectSetErase]
    have key : e ∈ m.m_objectGuidMap ∧ e.1 ≠ GetGUID G (heap obj) := by
      unfold RemoveWorldObject at he
      rw [if_pos hc] at he
      simp only at he
      cases hf : guidMapFind m.m_objectGuidMap (GetGUID G (heap obj)) with
      | some p =>
        rw [hf] at he
        exact (mem_guidMapErase _ _ _).mp he
      | none =>
        rw [hf] at he
        refine ⟨he, ?_⟩
        intro hk
        have hs := guidMapFind_isSome_of_mem _ e he
        rw [hk, hf] at hs
        cases hs
    refine ⟨⟨(h e key.1).1, ?_⟩, (h e key.1).2⟩
    intro ho
    apply key.2
    rw [← ho]
    exact (h e key.1).2.symm
  · rw [RemoveWorldObject_absent G heap m obj hc]; exact h

theorem runObjectCall_entries (G : Nat) (heap : Nat → WorldObject) (m : Map) (c : ObjectCall)
    (h : GuidEntriesSound G heap m) : GuidEntriesSound G heap (runObjectCall G heap m c) := by
  cases c with
  | add obj => exact AddWorldObject_entries G heap m obj h
  | remove obj => exact RemoveWorldObject_entries G heap m obj h
  | removeGuid guid =>
    rcases RemoveWorldObjectByGuid_eq G heap m guid with h1 | ⟨obj, h1⟩
    · show GuidEntriesSound G heap (RemoveWorldObjectByGuid G heap m guid)
      rw [h1]; exact h
    · show GuidEntriesSound G heap (RemoveWorldObjectByGuid G heap m guid)
      rw [h1]; exact RemoveWorldObject_entries G heap m obj h

theorem runObjectCalls_entries (G : Nat) (heap : Nat → WorldObject) (calls : List ObjectCall)
    (m : Map) (h : GuidEntriesSound G heap m) :
    GuidEntriesSound G heap (runObjectCalls G heap m calls) := by
  induction calls generalizing m with
  | nil => exact h
  | cons c rest ih =>
    unfold runObjectCalls
    rw [List.foldl_cons]
    exact ih _ (runObjectCall_entries G heap m c h)

/-- C20: in every map state reached from an empty map by `AddWorldObject`,
`RemoveWorldObject(obj)` and `RemoveWorldObject(guid)` calls (each object's GUID fixed
throughout, distinct objects allowed to share a GUID), every entry (g -> o) of the GUID
index has o present in the identity set and o's GUID equal to g; hence whatever
`GetWorldObject(g)` returns is an object of the identity set whose GUID is g. -/
theorem C20_guid_index_sound (OBJECT_FIELD_GUID : Nat) (heap : Nat → WorldObject)
    (calls : List ObjectCall) :
    GuidEntriesSound OBJECT_FIELD_GUID heap
        (runObjectCalls OBJECT_FIELD_GUID heap Map.new calls)
      ∧ ∀ g o, GetWorldObject (runObjectCalls OBJECT_FIELD_GUID heap Map.new calls) g = some o →
          o ∈ (runObjectCalls OBJECT_FIELD_GUID heap Map.new calls).m_objectSet
            ∧ GetGUID OBJECT_FIELD_GUID (heap o) = g := by
  constructor
  · apply runObjectCalls_entries
    intro e he
    cases he
  · have hs : GuidIndexSound OBJECT_FIELD_GUID heap
        (runObjectCalls OBJECT_FIELD_GUID heap Map.new calls) := by
      apply runObjectCalls_sound
      intro g o ho
      cases ho
    exact hs

theorem C20_witness :
    2 ∈ (runObjectCalls 0 sharedGuidHeap Map.new
          [ObjectCall.add 1, ObjectCall.remove 1, ObjectCall.add 1, ObjectCall.add 2]).m_objectSet
      ∧ GetGUID 0 (sharedGuidHeap 2) = 7 :=
  (C20_guid_index_sound 0 sharedGuidHeap
    [ObjectCall.add 1, ObjectCall.remove 1, ObjectCall.add 1, ObjectCall.add 2]).2 7 2 (by decide)

end BubbleWorld
